import Mathlib

/-!
Shallow embedding of the SubstratumNode neighborhood subsystem:
`neighborhood_database.rs` and `gossip_acceptor.rs`.

Rust `HashMap`s are modelled as association lists with insert-replaces
semantics; keys are unique by construction.  Rust panics (`expect`,
`panic!`) are modelled by returning `none` from an `Option`-valued
function.  Loggers are dropped: they do not affect data flow.
-/

namespace Substratum

/-- Public key: an opaque byte string (`Key { data: Vec<u8> }`). -/
abbrev Key := List Nat

/-- Opaque crypto bytes (`CryptData`). -/
abbrev CryptData := List Nat

/-- `NodeAddr`: an IP address (modelled abstractly as a `Nat`) plus a port list. -/
structure NodeAddr where
  ip : Nat
  ports : List Nat
deriving DecidableEq

/-- `NodeSignatures { complete, obscured }`. -/
structure NodeSignatures where
  complete : CryptData
  obscured : CryptData
deriving DecidableEq

/-- `NodeRecordInner` of `neighborhood_database.rs`. -/
structure NodeRecordInner where
  public_key : Key
  node_addr_opt : Option NodeAddr
  is_bootstrap_node : Bool
  neighbors : List Key
  version : Nat
deriving DecidableEq

/-- `NodeRecord { inner, signatures }`. -/
structure NodeRecord where
  inner : NodeRecordInner
  signatures : Option NodeSignatures
deriving DecidableEq

/-- `NeighborhoodDatabaseError`. -/
inductive NeighborhoodDatabaseError where
  | NodeKeyNotFound (k : Key)
  | NodeKeyCollision (k : Key)
  | NodeAddrAlreadySet (a : NodeAddr)
  | NodeSignaturesAlreadySet (s : NodeSignatures)
deriving DecidableEq

instance {ε α : Type} [DecidableEq ε] [DecidableEq α] : DecidableEq (Except ε α)
  | .ok a, .ok b =>
      if h : a = b then isTrue (by rw [h])
      else isFalse (by intro hh; cases hh; exact h rfl)
  | .ok _, .error _ => isFalse (by intro h; cases h)
  | .error _, .ok _ => isFalse (by intro h; cases h)
  | .error e, .error f =>
      if h : e = f then isTrue (by rw [h])
      else isFalse (by intro hh; cases hh; exact h rfl)

/-! ### Association lists standing in for `HashMap` -/

/-- `HashMap::get`. -/
def alistGet {α β : Type} [DecidableEq α] : List (α × β) → α → Option β
  | [], _ => none
  | (k', v) :: rest, k => if k' = k then some v else alistGet rest k

/-- `HashMap::insert`: replace the binding if the key is present, else append. -/
def alistInsert {α β : Type} [DecidableEq α] : List (α × β) → α → β → List (α × β)
  | [], k, v => [(k, v)]
  | (k', v') :: rest, k, v =>
      if k' = k then (k, v) :: rest else (k', v') :: alistInsert rest k v

/-- `HashMap::remove` (key uniqueness holds by construction, so remove all). -/
def alistRemove {α β : Type} [DecidableEq α] : List (α × β) → α → List (α × β)
  | [], _ => []
  | (k', v) :: rest, k =>
      if k' = k then alistRemove rest k else (k', v) :: alistRemove rest k

/-! ### `NodeRecord` operations -/

namespace NodeRecord

def public_key (r : NodeRecord) : Key := r.inner.public_key

def node_addr_opt (r : NodeRecord) : Option NodeAddr := r.inner.node_addr_opt

def is_bootstrap_node (r : NodeRecord) : Bool := r.inner.is_bootstrap_node

/-- `set_node_addr`: succeeds only when the current address is absent. -/
def set_node_addr (r : NodeRecord) (node_addr : NodeAddr) :
    Except NeighborhoodDatabaseError NodeRecord :=
  match r.inner.node_addr_opt with
  | some old => .error (.NodeAddrAlreadySet old)
  | none => .ok { r with inner := { r.inner with node_addr_opt := some node_addr } }

/-- `unset_node_addr`. -/
def unset_node_addr (r : NodeRecord) : NodeRecord :=
  { r with inner := { r.inner with node_addr_opt := none } }

/-- `set_signatures`: returns whether the stored signatures changed. -/
def set_signatures (r : NodeRecord) (signatures : NodeSignatures) : Bool × NodeRecord :=
  match r.signatures with
  | some existing =>
      if existing = signatures then (false, r)
      else (true, { r with signatures := some signatures })
  | none => (true, { r with signatures := some signatures })

def neighbors (r : NodeRecord) : List Key := r.inner.neighbors

/-- `remove_neighbor` on a record: removes the first occurrence, returns whether found. -/
def remove_neighbor (r : NodeRecord) (public_key : Key) : Bool × NodeRecord :=
  if public_key ∈ r.inner.neighbors then
    (true, { r with inner := { r.inner with neighbors := r.inner.neighbors.erase public_key } })
  else (false, r)

/-- `has_neighbor`. -/
def has_neighbor (r : NodeRecord) (public_key : Key) : Bool :=
  decide (public_key ∈ r.inner.neighbors)

def version (r : NodeRecord) : Nat := r.inner.version

/-- `increment_version`. -/
def increment_version (r : NodeRecord) : NodeRecord :=
  { r with inner := { r.inner with version := r.inner.version + 1 } }

/-- `set_version`. -/
def set_version (r : NodeRecord) (value : Nat) : NodeRecord :=
  { r with inner := { r.inner with version := value } }

end NodeRecord

/-! ### `NeighborhoodDatabase` -/

/-- `NeighborhoodDatabase { this_node, by_public_key, by_ip_addr }`. -/
structure NeighborhoodDatabase where
  this_node : Key
  by_public_key : List (Key × NodeRecord)
  by_ip_addr : List (Nat × Key)
deriving DecidableEq

namespace NeighborhoodDatabase

/-- `keys()`. -/
def keys (db : NeighborhoodDatabase) : List Key :=
  db.by_public_key.map (·.1)

/-- `node_by_key`. -/
def node_by_key (db : NeighborhoodDatabase) (public_key : Key) : Option NodeRecord :=
  alistGet db.by_public_key public_key

/-- `by_public_key.insert(k, r)` lifted to the database. -/
def insertRecord (db : NeighborhoodDatabase) (k : Key) (r : NodeRecord) :
    NeighborhoodDatabase :=
  { db with by_public_key := alistInsert db.by_public_key k r }

/-- `node_by_ip`: consults the secondary index, then the primary map. -/
def node_by_ip (db : NeighborhoodDatabase) (ip_addr : Nat) : Option NodeRecord :=
  match alistGet db.by_ip_addr ip_addr with
  | some key => db.node_by_key key
  | none => none

/-- `has_neighbor` on the database. -/
def has_neighbor (db : NeighborhoodDatabase) (from_key to_key : Key) : Bool :=
  match db.node_by_key from_key with
  | some f => f.has_neighbor to_key
  | none => false

/-- `root()`: `node_by_key(this_node)`; the Rust code panics (`expect`) when absent,
modelled by the `none` case at each use site. -/
def root (db : NeighborhoodDatabase) : Option NodeRecord :=
  db.node_by_key db.this_node

/-- `add_node`: fails with `NodeKeyCollision` when the key exists; otherwise inserts
the record and, iff it carries an address, indexes its IP. -/
def add_node (db : NeighborhoodDatabase) (node_record : NodeRecord) :
    Except NeighborhoodDatabaseError NeighborhoodDatabase :=
  if node_record.inner.public_key ∈ db.keys then
    .error (.NodeKeyCollision node_record.inner.public_key)
  else
    let db1 := db.insertRecord node_record.inner.public_key node_record
    match node_record.inner.node_addr_opt with
    | some node_addr =>
        .ok { db1 with
          by_ip_addr := alistInsert db1.by_ip_addr node_addr.ip node_record.inner.public_key }
    | none => .ok db1

/-- The error message of `remove_neighbor` for an unknown key. -/
def removeNonexistentMsg (node_key : Key) : String :=
  "could not remove nonexistent neighbor by public key: " ++ toString node_key

/-- `remove_neighbor(key)`: unknown key yields a descriptive error; otherwise clears
the target's address, removes its (old) IP from the index, and removes the edge
from the root record.  `none` models the `root_mut` panic when the root is absent. -/
def remove_neighbor (db : NeighborhoodDatabase) (node_key : Key) :
    Option (Except String (Bool × NeighborhoodDatabase)) :=
  match db.node_by_key node_key with
  | none => some (.error (removeNonexistentMsg node_key))
  | some to_remove =>
      let ip_addr : Option Nat := to_remove.node_addr_opt.map (·.ip)
      let db1 := db.insertRecord node_key to_remove.unset_node_addr
      let db2 := match ip_addr with
        | some ip => { db1 with by_ip_addr := alistRemove db1.by_ip_addr ip }
        | none => db1
      match db2.node_by_key db2.this_node with
      | none => none
      | some root_record =>
          let (removed, root') := root_record.remove_neighbor node_key
          some (.ok (removed, db2.insertRecord db2.this_node root'))

/-- `add_neighbor(from, to)`: `NodeKeyNotFound` when either key is absent; `false`
when the edge already exists; otherwise appends the edge and returns `true`. -/
def add_neighbor (db : NeighborhoodDatabase) (node_key new_neighbor : Key) :
    Except NeighborhoodDatabaseError (Bool × NeighborhoodDatabase) :=
  if new_neighbor ∉ db.keys then .error (.NodeKeyNotFound new_neighbor)
  else if db.has_neighbor node_key new_neighbor then .ok (false, db)
  else
    match db.node_by_key node_key with
    | some node =>
        let node' : NodeRecord := { node with inner :=
          { node.inner with neighbors := node.inner.neighbors ++ [new_neighbor] } }
        .ok (true, db.insertRecord node_key node')
    | none => .error (.NodeKeyNotFound node_key)

/-- `new(public_key, node_addr, is_bootstrap_node, cryptde)`.  Signing is modelled
abstractly: the cryptde-produced signature pair is passed in as `sigs`
(`cryptde.rs` is outside the embedded sources; signature bytes are opaque here).
`add_node` cannot fail on the empty database, so the error arm is unreachable. -/
def new (public_key : Key) (node_addr : NodeAddr) (is_bootstrap_node : Bool)
    (sigs : NodeSignatures) : NeighborhoodDatabase :=
  let base : NeighborhoodDatabase :=
    { this_node := public_key, by_public_key := [], by_ip_addr := [] }
  let node_record : NodeRecord :=
    { inner := { public_key := public_key, node_addr_opt := some node_addr,
                 is_bootstrap_node := is_bootstrap_node, neighbors := [], version := 0 },
      signatures := some sigs }
  match base.add_node node_record with
  | .ok db => db
  | .error _ => base

end NeighborhoodDatabase

/-! ### Gossip data and the gossip acceptor (`gossip_acceptor.rs`) -/

/-- Modelled from the spec: `gossip.rs` is not among the embedded sources.  A
gossip node record comprises "the record's inner fields plus its signature
pair" (spec §3, §4.6); this matches every use in `gossip_acceptor.rs`
(`gnr.inner.public_key`, `gnr.inner.node_addr_opt`, `gnr.inner.neighbors`,
`gnr.inner.version`, `gnr.signatures`). -/
structure GossipNodeRecord where
  inner : NodeRecordInner
  signatures : NodeSignatures
deriving DecidableEq

/-- Modelled from the spec: `Gossip` is "an ordered list of gossip node
records" (spec §3); `gossip_acceptor.rs` accesses only `gossip.node_records`. -/
structure Gossip where
  node_records : List GossipNodeRecord
deriving DecidableEq

/-- Modelled from the spec: `GossipNodeRecord::to_node_record` lives in the
missing `gossip.rs`; per spec §4.7 step 2 an unknown record is admitted
"as-is (including address and neighbors)", so the conversion carries the inner
fields and the signature pair over unchanged. -/
def GossipNodeRecord.to_node_record (gnr : GossipNodeRecord) : NodeRecord :=
  { inner := gnr.inner, signatures := some gnr.signatures }

namespace GossipAcceptorReal

open NeighborhoodDatabase

/-- `is_not_invalid`: blank public key, blank neighbor reference, or
self-neighboring record. -/
def is_not_invalid (gnr : GossipNodeRecord) : Bool :=
  let empty_key : Key := []
  if gnr.inner.public_key.isEmpty then false
  else if empty_key ∈ gnr.inner.neighbors then false
  else if gnr.inner.public_key ∈ gnr.inner.neighbors then false
  else true

/-- `update_node_addrs`: adopt an incoming address when the stored one is absent;
log-and-ignore a `NodeAddrAlreadySet` rejection.  The Rust `Err(_) => panic!`
("Compiler candy") arm is `none`; `set_node_addr` never returns another error,
so it is unreachable. -/
def update_node_addrs (gnr : GossipNodeRecord) (node_record : NodeRecord) :
    Option (Bool × NodeRecord) :=
  match gnr.inner.node_addr_opt with
  | some new_node_addr =>
      match node_record.set_node_addr new_node_addr with
      | .ok r => some (true, r)
      | .error (.NodeAddrAlreadySet _) => some (false, node_record)
      | .error _ => none
  | none => some (false, node_record)

/-- `update_neighbors`: `HashSet` comparison of the gossip neighbors against the
stored neighbors; on difference, clear and extend with the gossip neighbors. -/
def update_neighbors (gnr : GossipNodeRecord) (node_record : NodeRecord) :
    Bool × NodeRecord :=
  let unchanged := decide ((∀ k ∈ gnr.inner.neighbors, k ∈ node_record.inner.neighbors) ∧
    (∀ k ∈ node_record.inner.neighbors, k ∈ gnr.inner.neighbors))
  if unchanged then (false, node_record)
  else (true, { node_record with inner :=
    { node_record.inner with neighbors := gnr.inner.neighbors } })

/-- `update_signatures`. -/
def update_signatures (gnr : GossipNodeRecord) (node_record : NodeRecord) :
    Bool × NodeRecord :=
  node_record.set_signatures gnr.signatures

/-- `update_version`. -/
def update_version (gnr : GossipNodeRecord) (node_record : NodeRecord) : NodeRecord :=
  node_record.set_version gnr.inner.version

/-- One iteration of the `for_each` in `handle_node_records`.  The `none`
results model the `expect` panics ("Key magically disappeared" / "Key magically
appeared") and the unreachable "Compiler candy" panic.  The `||` chain is
short-circuiting exactly as in Rust: a later update runs only when every
earlier one reported no change. -/
def handle_step (acc : NeighborhoodDatabase × Bool) (gnr : GossipNodeRecord) :
    Option (NeighborhoodDatabase × Bool) :=
  let (database, changed) := acc
  if gnr.inner.public_key ∈ database.keys then
    match database.node_by_key gnr.inner.public_key with
    | none => none
    | some node_record =>
        match update_node_addrs gnr node_record with
        | none => none
        | some (node_addr_changed, r1) =>
            if r1.version < gnr.inner.version then
              let r2 := update_version gnr r1
              if node_addr_changed then
                some (database.insertRecord gnr.inner.public_key r2, true)
              else
                let (neighbors_changed, r3) := update_neighbors gnr r2
                if neighbors_changed then
                  some (database.insertRecord gnr.inner.public_key r3, true)
                else
                  let (signatures_changed, r4) := update_signatures gnr r3
                  some (database.insertRecord gnr.inner.public_key r4,
                    signatures_changed || changed)
            else
              some (database.insertRecord gnr.inner.public_key r1,
                node_addr_changed || changed)
  else
    match database.add_node gnr.to_node_record with
    | .ok db' => some (db', true)
    | .error _ => none

/-- The `for_each` loop of `handle_node_records` over the filtered records. -/
def handle_loop (acc : NeighborhoodDatabase × Bool) :
    List GossipNodeRecord → Option (NeighborhoodDatabase × Bool)
  | [] => some acc
  | gnr :: rest =>
      match handle_step acc gnr with
      | some acc' => handle_loop acc' rest
      | none => none

/-- `handle_node_records` (Phase A): absorb each valid gossip record. -/
def handle_node_records (database : NeighborhoodDatabase) (gossip_ref : Gossip) :
    Option (NeighborhoodDatabase × Bool) :=
  handle_loop (database, false) (gossip_ref.node_records.filter is_not_invalid)

/-- One iteration of the `for_each` in `add_ip_neighbors`; `none` models the
`expect("Node magically disappeared")` panic. -/
def ip_step (root_key : Key) (acc : NeighborhoodDatabase × Bool)
    (gnr : GossipNodeRecord) : Option (NeighborhoodDatabase × Bool) :=
  let (database, changed) := acc
  if gnr.inner.node_addr_opt.isSome ∧ gnr.inner.public_key ≠ root_key then
    match database.add_neighbor root_key gnr.inner.public_key with
    | .ok (new_edge, db') => some (db', new_edge || changed)
    | .error _ => none
  else some (database, changed)

/-- The `for_each` loop of `add_ip_neighbors` over all gossip records. -/
def ip_loop (root_key : Key) (acc : NeighborhoodDatabase × Bool) :
    List GossipNodeRecord → Option (NeighborhoodDatabase × Bool)
  | [] => some acc
  | gnr :: rest =>
      match ip_step root_key acc gnr with
      | some acc' => ip_loop root_key acc' rest
      | none => none

/-- `add_ip_neighbors` (Phase B): for every gossip record carrying an address
whose key is not the root's, attempt `add_neighbor(root, key)`; when any edge
was new, increment the root's version once. -/
def add_ip_neighbors (database : NeighborhoodDatabase) (gossip_ref : Gossip) :
    Option (NeighborhoodDatabase × Bool) :=
  match database.root with
  | none => none
  | some root_record =>
      let root_key := root_record.public_key
      match ip_loop root_key (database, false) gossip_ref.node_records with
      | none => none
      | some (db1, changed) =>
          if changed then
            match db1.node_by_key db1.this_node with
            | none => none
            | some r =>
                some (db1.insertRecord db1.this_node r.increment_version, changed)
          else some (db1, changed)

/-- `GossipAcceptorReal::handle`: Phase A, then Phase B; the returned flag is
the disjunction of both phases' flags. -/
def handle (database : NeighborhoodDatabase) (gossip : Gossip) :
    Option (NeighborhoodDatabase × Bool) :=
  match handle_node_records database gossip with
  | none => none
  | some (db1, changed1) =>
      match add_ip_neighbors db1 gossip with
      | none => none
      | some (db2, changed2) => some (db2, changed2 || changed1)

end GossipAcceptorReal

/-! ### Invariants and relations over database states -/

/-- Two optional addresses clash when both are present with the same IP. -/
def addrIpClash : Option NodeAddr → Option NodeAddr → Bool
  | some a, some b => a.ip == b.ip
  | _, _ => false

/-- No two records stored under distinct keys carry addresses with the same IP. -/
def ipConsistent (l : List (Key × NodeRecord)) : Prop :=
  ∀ p ∈ l, ∀ q ∈ l, p.1 ≠ q.1 →
    addrIpClash p.2.inner.node_addr_opt q.2.inner.node_addr_opt = false

/-- No stored record lists its own public key among its neighbors. -/
def noSelfNeighbor (l : List (Key × NodeRecord)) : Prop :=
  ∀ p ∈ l, p.2.inner.public_key ∉ p.2.inner.neighbors

/-- Every record is stored under its own public key. -/
def wellKeyed (l : List (Key × NodeRecord)) : Prop :=
  ∀ p ∈ l, p.2.inner.public_key = p.1

instance (l : List (Key × NodeRecord)) : Decidable (ipConsistent l) := by
  unfold ipConsistent; infer_instance

instance (l : List (Key × NodeRecord)) : Decidable (noSelfNeighbor l) := by
  unfold noSelfNeighbor; infer_instance

instance (l : List (Key × NodeRecord)) : Decidable (wellKeyed l) := by
  unfold wellKeyed; infer_instance

/-- `r'` agrees with `r` on every field except that its version may be larger. -/
def versionOnlyLe (r r' : NodeRecord) : Prop :=
  r'.inner.public_key = r.inner.public_key ∧
  r'.inner.node_addr_opt = r.inner.node_addr_opt ∧
  r'.inner.is_bootstrap_node = r.inner.is_bootstrap_node ∧
  r'.inner.neighbors = r.inner.neighbors ∧
  r'.signatures = r.signatures ∧
  r.inner.version ≤ r'.inner.version

/-- Lift of `versionOnlyLe` to lookup results. -/
def nodeOptLe : Option NodeRecord → Option NodeRecord → Prop
  | none, none => True
  | some r, some r' => versionOnlyLe r r'
  | _, _ => False

/-- `db'` observably equals `db` except that stored versions may have advanced:
same root designation, same IP index, and pointwise `versionOnlyLe` records. -/
def dbVersionLe (db db' : NeighborhoodDatabase) : Prop :=
  db'.this_node = db.this_node ∧
  db'.by_ip_addr = db.by_ip_addr ∧
  ∀ k : Key, nodeOptLe (db.node_by_key k) (db'.node_by_key k)

/-! ### Concrete scenario values -/

/-- An arbitrary opaque signature pair used by the concrete scenarios. -/
def sigA : NodeSignatures := ⟨[9], [9]⟩

def c1Root : NodeRecord := ⟨⟨[1], some ⟨1, [1]⟩, false, [[2]], 0⟩, some sigA⟩

def c1Rec2 : NodeRecord := ⟨⟨[2], some ⟨2, [2]⟩, false, [[1]], 0⟩, some sigA⟩

def c1Db : NeighborhoodDatabase :=
  ⟨[1], [([1], c1Root), ([2], c1Rec2)], [(1, [1]), (2, [2])]⟩

def c1Gossip : Gossip := ⟨[⟨⟨[2], some ⟨2, [2]⟩, false, [[1]], 3⟩, sigA⟩]⟩

def c1Post : NeighborhoodDatabase :=
  ⟨[1], [([1], c1Root), ([2], ⟨⟨[2], some ⟨2, [2]⟩, false, [[1]], 3⟩, some sigA⟩)],
   [(1, [1]), (2, [2])]⟩

def c2Root : NodeRecord := ⟨⟨[1], some ⟨1, [1]⟩, false, [], 0⟩, some sigA⟩

def c2Db : NeighborhoodDatabase := ⟨[1], [([1], c2Root)], [(1, [1])]⟩

/-- A gossip record that fails the validity filter (it lists itself as its own
neighbor) yet carries a `node_addr`. -/
def c2Gnr : GossipNodeRecord := ⟨⟨[2], some ⟨9, [80]⟩, false, [[2]], 0⟩, sigA⟩

def c4Root : NodeRecord := ⟨⟨[1], some ⟨1, [1]⟩, false, [], 0⟩, some sigA⟩

def c4Rec2 : NodeRecord := ⟨⟨[2], none, false, [], 0⟩, some sigA⟩

def c4Db : NeighborhoodDatabase := ⟨[1], [([1], c4Root), ([2], c4Rec2)], [(1, [1])]⟩

/-- Higher version, a fresh address to adopt, and a different neighbors list. -/
def c4Gnr : GossipNodeRecord := ⟨⟨[2], some ⟨5, [5]⟩, false, [[1]], 1⟩, sigA⟩

def c4Post : NeighborhoodDatabase :=
  ⟨[1], [([1], ⟨⟨[1], some ⟨1, [1]⟩, false, [[2]], 1⟩, some sigA⟩),
         ([2], ⟨⟨[2], some ⟨5, [5]⟩, false, [], 1⟩, some sigA⟩)], [(1, [1])]⟩

def c6Db : NeighborhoodDatabase := ⟨[1], [([1], c2Root)], [(1, [1])]⟩

/-- An invalid gossip record: lists itself among its neighbors. -/
def c6Gnr : GossipNodeRecord := ⟨⟨[4], none, false, [[4]], 0⟩, sigA⟩

def c7Db : NeighborhoodDatabase := NeighborhoodDatabase.new [1] ⟨1, [1]⟩ false sigA

/-- Two gossip records with distinct keys but the same IP (7). -/
def c7Gossip : Gossip :=
  ⟨[⟨⟨[2], some ⟨7, [2]⟩, false, [], 0⟩, sigA⟩,
    ⟨⟨[3], some ⟨7, [3]⟩, false, [], 0⟩, sigA⟩]⟩

def c7Post : NeighborhoodDatabase :=
  ⟨[1], [([1], ⟨⟨[1], some ⟨1, [1]⟩, false, [[2], [3]], 1⟩, some sigA⟩),
         ([2], ⟨⟨[2], some ⟨7, [2]⟩, false, [], 0⟩, some sigA⟩),
         ([3], ⟨⟨[3], some ⟨7, [3]⟩, false, [], 0⟩, some sigA⟩)],
   [(1, [1]), (7, [3])]⟩

def c8Db0 : NeighborhoodDatabase := NeighborhoodDatabase.new [1] ⟨1, [1]⟩ false sigA

def c8Rec2 : NodeRecord := ⟨⟨[2], none, false, [], 0⟩, some sigA⟩

def c8Db1 : NeighborhoodDatabase :=
  ⟨[1], [([1], ⟨⟨[1], some ⟨1, [1]⟩, false, [], 0⟩, some sigA⟩), ([2], c8Rec2)], [(1, [1])]⟩

def c8Post : NeighborhoodDatabase :=
  ⟨[1], [([1], ⟨⟨[1], some ⟨1, [1]⟩, false, [], 0⟩, some sigA⟩),
         ([2], ⟨⟨[2], none, false, [[2]], 0⟩, some sigA⟩)], [(1, [1])]⟩

/-- The record stored under `k` carries address `a`. -/
def hasStoredAddr (db : NeighborhoodDatabase) (k : Key) (a : NodeAddr) : Prop :=
  ∃ r, db.node_by_key k = some r ∧ r.inner.node_addr_opt = some a

/-- A sequence of `handle` calls (discarding the changed flags); `none` when
any call panics. -/
def handleSeq (db : NeighborhoodDatabase) : List Gossip → Option NeighborhoodDatabase
  | [] => some db
  | g :: gs =>
      match GossipAcceptorReal.handle db g with
      | some (db', _) => handleSeq db' gs
      | none => none

def c3Root : NodeRecord := ⟨⟨[1], some ⟨1, [1]⟩, false, [[2]], 0⟩, some sigA⟩

def c3Rec2 : NodeRecord := ⟨⟨[2], some ⟨2, [2]⟩, false, [], 0⟩, some sigA⟩

def c3Db : NeighborhoodDatabase :=
  ⟨[1], [([1], c3Root), ([2], c3Rec2)], [(1, [1]), (2, [2])]⟩

/-- A gossip record trying to replace the stored address of `[2]`. -/
def c3Gossip : Gossip := ⟨[⟨⟨[2], some ⟨3, [3]⟩, false, [], 5⟩, sigA⟩]⟩

def c3Post : NeighborhoodDatabase :=
  ⟨[1], [([1], c3Root), ([2], ⟨⟨[2], some ⟨2, [2]⟩, false, [], 5⟩, some sigA⟩)],
   [(1, [1]), (2, [2])]⟩

def c5Db : NeighborhoodDatabase :=
  ⟨[1], [([1], ⟨⟨[1], some ⟨1, [1]⟩, false, [], 0⟩, some sigA⟩)], [(1, [1])]⟩

/-- A single gossip record with an address, unknown to `c5Db`. -/
def c5Gossip : Gossip := ⟨[⟨⟨[2], some ⟨2, [2]⟩, false, [], 0⟩, sigA⟩]⟩

def c5Db1 : NeighborhoodDatabase :=
  ⟨[1], [([1], ⟨⟨[1], some ⟨1, [1]⟩, false, [], 0⟩, some sigA⟩),
         ([2], ⟨⟨[2], some ⟨2, [2]⟩, false, [], 0⟩, some sigA⟩)], [(1, [1]), (2, [2])]⟩

def c5Db2 : NeighborhoodDatabase :=
  ⟨[1], [([1], ⟨⟨[1], some ⟨1, [1]⟩, false, [[2]], 1⟩, some sigA⟩),
         ([2], ⟨⟨[2], some ⟨2, [2]⟩, false, [], 0⟩, some sigA⟩)], [(1, [1]), (2, [2])]⟩

def c9Root : NodeRecord := ⟨⟨[1], some ⟨1, [1]⟩, false, [[2]], 0⟩, some sigA⟩

def c9Rec2 : NodeRecord := ⟨⟨[2], some ⟨2, [2]⟩, false, [], 0⟩, some sigA⟩

def c9Db : NeighborhoodDatabase :=
  ⟨[1], [([1], c9Root), ([2], c9Rec2)], [(1, [1]), (2, [2])]⟩

def c10Rec2 : NodeRecord := ⟨⟨[2], none, false, [], 0⟩, some sigA⟩

def c10Db : NeighborhoodDatabase :=
  ⟨[1], [([1], c9Root), ([2], c10Rec2)], [(1, [1])]⟩

/-- A valid gossip record adopting address 5.5.5.5 for the stored key `[2]`. -/
def c10Gnr : GossipNodeRecord := ⟨⟨[2], some ⟨5, [5]⟩, false, [], 0⟩, sigA⟩

/-- Database states reachable through `new`, `add_node` restricted to records
whose IP (if any) is fresh, `add_neighbor` and `remove_neighbor`.  The
freshness side condition is exactly what `add_node` fails to check. -/
inductive ReachFreshIp : NeighborhoodDatabase → Prop
  | new (k : Key) (addr : NodeAddr) (b : Bool) (s : NodeSignatures) :
      ReachFreshIp (NeighborhoodDatabase.new k addr b s)
  | add_node {db : NeighborhoodDatabase} {r : NodeRecord} {db' : NeighborhoodDatabase} :
      ReachFreshIp db → db.add_node r = .ok db' →
      (∀ a, r.inner.node_addr_opt = some a →
        ∀ p ∈ db.by_public_key, addrIpClash (some a) p.2.inner.node_addr_opt = false) →
      ReachFreshIp db'
  | add_neighbor {db : NeighborhoodDatabase} {x y : Key} {f : Bool}
      {db' : NeighborhoodDatabase} :
      ReachFreshIp db → db.add_neighbor x y = .ok (f, db') → ReachFreshIp db'
  | remove_neighbor {db : NeighborhoodDatabase} {k : Key} {f : Bool}
      {db' : NeighborhoodDatabase} :
      ReachFreshIp db → db.remove_neighbor k = some (.ok (f, db')) → ReachFreshIp db'

/-- Database states reachable through `new`, `add_node` of records without
self-loops, `add_neighbor` on distinct keys, `remove_neighbor`, and arbitrary
(non-panicking) gossip `handle` calls.  The side conditions on `add_node` and
`add_neighbor` are exactly what the code fails to check. -/
inductive ReachGuarded : NeighborhoodDatabase → Prop
  | new (k : Key) (addr : NodeAddr) (b : Bool) (s : NodeSignatures) :
      ReachGuarded (NeighborhoodDatabase.new k addr b s)
  | add_node {db : NeighborhoodDatabase} {r : NodeRecord} {db' : NeighborhoodDatabase} :
      ReachGuarded db → db.add_node r = .ok db' →
      r.inner.public_key ∉ r.inner.neighbors → ReachGuarded db'
  | add_neighbor {db : NeighborhoodDatabase} {x y : Key} {f : Bool}
      {db' : NeighborhoodDatabase} :
      ReachGuarded db → db.add_neighbor x y = .ok (f, db') → x ≠ y → ReachGuarded db'
  | remove_neighbor {db : NeighborhoodDatabase} {k : Key} {f : Bool}
      {db' : NeighborhoodDatabase} :
      ReachGuarded db → db.remove_neighbor k = some (.ok (f, db')) → ReachGuarded db'
  | handle {db : NeighborhoodDatabase} {g : Gossip} {db' : NeighborhoodDatabase}
      {c : Bool} :
      ReachGuarded db → GossipAcceptorReal.handle db g = some (db', c) → ReachGuarded db'

/-- A record with a fresh IP (9.9.9.9) to add to a fresh database. -/
def c7FreshRec : NodeRecord := ⟨⟨[2], some ⟨9, [9]⟩, false, [], 0⟩, some sigA⟩

def c7FreshDb : NeighborhoodDatabase :=
  ⟨[1], [([1], ⟨⟨[1], some ⟨1, [1]⟩, false, [], 0⟩, some sigA⟩), ([2], c7FreshRec)],
   [(1, [1]), (9, [2])]⟩

/-! ### Association-list lemmas -/

section AlistLemmas

variable {α β : Type} [DecidableEq α]

theorem alistGet_insert (l : List (α × β)) (k k' : α) (v : β) :
    alistGet (alistInsert l k v) k' = if k' = k then some v else alistGet l k' := by
  induction l with
  | nil =>
      by_cases h : k' = k
      · subst h; simp [alistInsert, alistGet]
      · simp [alistInsert, alistGet, h, Ne.symm h]
  | cons p rest ih =>
      obtain ⟨pk, pv⟩ := p
      by_cases hpk : pk = k
      · subst hpk
        by_cases h : k' = pk
        · subst h; simp [alistInsert, alistGet]
        · simp [alistInsert, alistGet, h, Ne.symm h]
      · by_cases h : k' = pk
        · subst h
          simp [alistInsert, alistGet, hpk, fun he : k' = k => hpk (he ▸ rfl)]
        · simp [alistInsert, alistGet, hpk, Ne.symm h, ih]

theorem alistGet_mem {l : List (α × β)} {k : α} {v : β}
    (h : alistGet l k = some v) : (k, v) ∈ l := by
  induction l with
  | nil => simp [alistGet] at h
  | cons p rest ih =>
      obtain ⟨pk, pv⟩ := p
      by_cases hpk : pk = k
      · subst hpk
        simp [alistGet] at h
        simp [h]
      · simp [alistGet, hpk] at h
        exact List.mem_cons_of_mem _ (ih h)

theorem mem_alistInsert {l : List (α × β)} {k : α} {v : β} {p : α × β}
    (h : p ∈ alistInsert l k v) : p = (k, v) ∨ p ∈ l := by
  induction l with
  | nil => simpa [alistInsert] using h
  | cons q rest ih =>
      obtain ⟨qk, qv⟩ := q
      by_cases hqk : qk = k
      · subst hqk
        simp [alistInsert] at h
        rcases h with h | h
        · exact Or.inl h
        · exact Or.inr (List.mem_cons_of_mem _ h)
      · simp [alistInsert, hqk] at h
        rcases h with h | h
        · exact Or.inr (by simp [h])
        · rcases ih h with h' | h'
          · exact Or.inl h'
          · exact Or.inr (List.mem_cons_of_mem _ h')

theorem alistGet_remove (l : List (α × β)) (k k' : α) :
    alistGet (alistRemove l k) k' = if k' = k then none else alistGet l k' := by
  induction l with
  | nil =>
      by_cases h : k' = k
      · subst h; simp [alistRemove, alistGet]
      · simp [alistRemove, alistGet, h]
  | cons p rest ih =>
      obtain ⟨pk, pv⟩ := p
      by_cases hpk : pk = k
      · subst hpk
        by_cases h : k' = pk
        · subst h; simp [alistRemove, alistGet, ih]
        · simp [alistRemove, alistGet, h, Ne.symm h, ih]
      · by_cases h : k' = pk
        · subst h
          simp [alistRemove, alistGet, hpk, fun he : k' = k => hpk (he ▸ rfl)]
        · simp [alistRemove, alistGet, hpk, Ne.symm h, h, ih]

theorem alistGet_eq_none_iff {l : List (α × β)} {k : α} :
    alistGet l k = none ↔ k ∉ l.map (·.1) := by
  induction l with
  | nil => simp [alistGet]
  | cons p rest ih =>
      obtain ⟨pk, pv⟩ := p
      by_cases hpk : pk = k
      · subst hpk
        simp [alistGet]
      · simp [alistGet, hpk, ih, Ne.symm hpk]

theorem alistGet_isSome_of_mem_keys {l : List (α × β)} {k : α}
    (h : k ∈ l.map (·.1)) : ∃ v, alistGet l k = some v := by
  rcases hv : alistGet l k with _ | v
  · exact absurd (alistGet_eq_none_iff.mp hv) (by simp [h])
  · exact ⟨v, rfl⟩

theorem alistInsert_of_get_eq {l : List (α × β)} {k : α} {v : β}
    (h : alistGet l k = some v) : alistInsert l k v = l := by
  induction l with
  | nil => simp [alistGet] at h
  | cons p rest ih =>
      obtain ⟨pk, pv⟩ := p
      by_cases hpk : pk = k
      · subst hpk
        simp [alistGet] at h
        simp [alistInsert, h]
      · simp [alistGet, hpk] at h
        simp [alistInsert, hpk, ih h]

theorem alistInsert_of_not_mem {l : List (α × β)} {k : α} (v : β)
    (h : k ∉ l.map (·.1)) : alistInsert l k v = l ++ [(k, v)] := by
  induction l with
  | nil => simp [alistInsert]
  | cons p rest ih =>
      obtain ⟨pk, pv⟩ := p
      simp only [List.map_cons, List.mem_cons, not_or] at h
      obtain ⟨h1, h2⟩ := h
      have h1' : ¬pk = k := fun he => h1 he.symm
      simp [alistInsert, h1', ih h2]

end AlistLemmas

/-! ### Derived database lemmas -/

namespace NeighborhoodDatabase

theorem node_by_key_insertRecord (db : NeighborhoodDatabase) (k k' : Key) (r : NodeRecord) :
    (db.insertRecord k r).node_by_key k' = if k' = k then some r else db.node_by_key k' :=
  alistGet_insert db.by_public_key k k' r

theorem insertRecord_this_node (db : NeighborhoodDatabase) (k : Key) (r : NodeRecord) :
    (db.insertRecord k r).this_node = db.this_node := rfl

theorem insertRecord_by_ip_addr (db : NeighborhoodDatabase) (k : Key) (r : NodeRecord) :
    (db.insertRecord k r).by_ip_addr = db.by_ip_addr := rfl

theorem insertRecord_self {db : NeighborhoodDatabase} {k : Key} {r : NodeRecord}
    (h : db.node_by_key k = some r) : db.insertRecord k r = db := by
  cases db
  simp only [insertRecord]
  congr 1
  exact alistInsert_of_get_eq h

theorem mem_keys_iff {db : NeighborhoodDatabase} {k : Key} :
    k ∈ db.keys ↔ ∃ r, db.node_by_key k = some r := by
  constructor
  · intro h
    exact alistGet_isSome_of_mem_keys h
  · rintro ⟨r, hr⟩
    by_contra hmem
    rw [show db.node_by_key k = alistGet db.by_public_key k from rfl,
      alistGet_eq_none_iff.mpr hmem] at hr
    exact Option.noConfusion hr

theorem add_node_ok_lookup {db : NeighborhoodDatabase} {r : NodeRecord}
    {db' : NeighborhoodDatabase} (h : db.add_node r = .ok db') :
    db'.this_node = db.this_node ∧
    r.inner.public_key ∉ db.keys ∧
    (∀ k, db'.node_by_key k =
      if k = r.inner.public_key then some r else db.node_by_key k) ∧
    db'.by_ip_addr = (match r.inner.node_addr_opt with
      | some a => alistInsert db.by_ip_addr a.ip r.inner.public_key
      | none => db.by_ip_addr) := by
  by_cases hmem : r.inner.public_key ∈ db.keys
  · simp [add_node, hmem] at h
  · rcases haddr : r.inner.node_addr_opt with _ | a <;>
      · simp [add_node, hmem, haddr] at h
        subst h
        refine ⟨rfl, hmem, fun k => ?_, by simp [haddr, insertRecord]⟩
        simpa [insertRecord, node_by_key] using alistGet_insert db.by_public_key _ k r

theorem add_neighbor_ok {db : NeighborhoodDatabase} {x y : Key} {f : Bool}
    {db' : NeighborhoodDatabase} (h : db.add_neighbor x y = .ok (f, db')) :
    (f = false ∧ db' = db) ∨
    (f = true ∧ ∃ node, db.node_by_key x = some node ∧
      db' = db.insertRecord x { node with inner :=
        { node.inner with neighbors := node.inner.neighbors ++ [y] } }) := by
  by_cases hy : y ∈ db.keys
  · by_cases hhn : db.has_neighbor x y = true
    · left
      simp [add_neighbor, hy, hhn] at h
      exact ⟨h.1, h.2.symm⟩
    · rcases hx : db.node_by_key x with _ | node
      · simp [add_neighbor, hy, hhn, hx] at h
      · right
        simp [add_neighbor, hy, hhn, hx] at h
        exact ⟨h.1, node, rfl, h.2.symm⟩
  · simp [add_neighbor, hy] at h

end NeighborhoodDatabase

/-! ### Field-preservation lemmas for the record updates -/

namespace GossipAcceptorReal

theorem update_node_addrs_some {gnr : GossipNodeRecord} {r : NodeRecord} {b : Bool}
    {r' : NodeRecord} (h : update_node_addrs gnr r = some (b, r')) :
    r'.inner.public_key = r.inner.public_key ∧
    r'.inner.is_bootstrap_node = r.inner.is_bootstrap_node ∧
    r'.inner.neighbors = r.inner.neighbors ∧
    r'.inner.version = r.inner.version ∧
    r'.signatures = r.signatures ∧
    (b = false → r' = r) ∧
    (b = true → r.inner.node_addr_opt = none ∧
      r'.inner.node_addr_opt = gnr.inner.node_addr_opt) := by
  rcases hg : gnr.inner.node_addr_opt with _ | a
  · simp [update_node_addrs, hg] at h
    obtain ⟨hb, hr⟩ := h
    subst hb; subst hr
    simp
  · rcases hr : r.inner.node_addr_opt with _ | old
    · simp [update_node_addrs, hg, NodeRecord.set_node_addr, hr] at h
      obtain ⟨hb, hr'⟩ := h
      subst hb; subst hr'
      simp [hr, hg]
    · simp [update_node_addrs, hg, NodeRecord.set_node_addr, hr] at h
      obtain ⟨hb, hr'⟩ := h
      subst hb; subst hr'
      simp

theorem update_neighbors_snd (gnr : GossipNodeRecord) (r : NodeRecord) :
    ((update_neighbors gnr r).2.inner.public_key = r.inner.public_key ∧
     (update_neighbors gnr r).2.inner.node_addr_opt = r.inner.node_addr_opt ∧
     (update_neighbors gnr r).2.inner.is_bootstrap_node = r.inner.is_bootstrap_node ∧
     (update_neighbors gnr r).2.inner.version = r.inner.version ∧
     (update_neighbors gnr r).2.signatures = r.signatures) ∧
    ((update_neighbors gnr r).1 = false → (update_neighbors gnr r).2 = r) ∧
    ((update_neighbors gnr r).1 = true →
      (update_neighbors gnr r).2.inner.neighbors = gnr.inner.neighbors) := by
  by_cases hu : (decide ((∀ k ∈ gnr.inner.neighbors, k ∈ r.inner.neighbors) ∧
      (∀ k ∈ r.inner.neighbors, k ∈ gnr.inner.neighbors))) = true
  · simp [update_neighbors, hu]
  · simp only [Bool.not_eq_true] at hu
    simp [update_neighbors, hu]

theorem set_signatures_snd (r : NodeRecord) (s : NodeSignatures) :
    ((r.set_signatures s).2.inner = r.inner) ∧
    ((r.set_signatures s).1 = false → (r.set_signatures s).2 = r) ∧
    ((r.set_signatures s).1 = true → (r.set_signatures s).2.signatures = some s) := by
  rcases hs : r.signatures with _ | existing
  · simp [NodeRecord.set_signatures, hs]
  · by_cases he : existing = s
    · simp [NodeRecord.set_signatures, hs, he]
    · simp [NodeRecord.set_signatures, hs, he]

theorem set_version_fields (r : NodeRecord) (v : Nat) :
    (r.set_version v).inner.public_key = r.inner.public_key ∧
    (r.set_version v).inner.node_addr_opt = r.inner.node_addr_opt ∧
    (r.set_version v).inner.is_bootstrap_node = r.inner.is_bootstrap_node ∧
    (r.set_version v).inner.neighbors = r.inner.neighbors ∧
    (r.set_version v).signatures = r.signatures ∧
    (r.set_version v).inner.version = v := by
  simp [NodeRecord.set_version]

end GossipAcceptorReal

/-! ### Relation lemmas -/

theorem versionOnlyLe_refl (r : NodeRecord) : versionOnlyLe r r :=
  ⟨rfl, rfl, rfl, rfl, rfl, le_refl _⟩

theorem versionOnlyLe_trans {r₁ r₂ r₃ : NodeRecord}
    (h₁ : versionOnlyLe r₁ r₂) (h₂ : versionOnlyLe r₂ r₃) : versionOnlyLe r₁ r₃ := by
  obtain ⟨a1, b1, c1, d1, e1, f1⟩ := h₁
  obtain ⟨a2, b2, c2, d2, e2, f2⟩ := h₂
  exact ⟨a2.trans a1, b2.trans b1, c2.trans c1, d2.trans d1, e2.trans e1, f1.trans f2⟩

theorem nodeOptLe_refl (o : Option NodeRecord) : nodeOptLe o o := by
  cases o with
  | none => trivial
  | some r => exact versionOnlyLe_refl r

theorem nodeOptLe_trans {o₁ o₂ o₃ : Option NodeRecord}
    (h₁ : nodeOptLe o₁ o₂) (h₂ : nodeOptLe o₂ o₃) : nodeOptLe o₁ o₃ := by
  cases o₁ <;> cases o₂ <;> cases o₃ <;> simp [nodeOptLe] at *
  exact versionOnlyLe_trans h₁ h₂

theorem dbVersionLe_refl (db : NeighborhoodDatabase) : dbVersionLe db db :=
  ⟨rfl, rfl, fun _ => nodeOptLe_refl _⟩

theorem dbVersionLe_trans {db₁ db₂ db₃ : NeighborhoodDatabase}
    (h₁ : dbVersionLe db₁ db₂) (h₂ : dbVersionLe db₂ db₃) : dbVersionLe db₁ db₃ :=
  ⟨h₂.1.trans h₁.1, h₂.2.1.trans h₁.2.1,
   fun k => nodeOptLe_trans (h₁.2.2 k) (h₂.2.2 k)⟩

/-! ### Step lemmas for the two phases of `handle` -/

open GossipAcceptorReal NeighborhoodDatabase

theorem dbVersionLe_insert {db : NeighborhoodDatabase} {k : Key} {r r' : NodeRecord}
    (hr : db.node_by_key k = some r) (hle : versionOnlyLe r r') :
    dbVersionLe db (db.insertRecord k r') := by
  refine ⟨rfl, rfl, fun k' => ?_⟩
  rw [node_by_key_insertRecord]
  by_cases hk : k' = k
  · subst hk
    simp [hr, nodeOptLe, hle]
  · rw [if_neg hk]
    exact nodeOptLe_refl _

theorem handle_step_changed_false {db db' : NeighborhoodDatabase} {c c' : Bool}
    {gnr : GossipNodeRecord}
    (h : handle_step (db, c) gnr = some (db', c')) (hc' : c' = false) :
    c = false ∧ dbVersionLe db db' := by
  subst hc'
  by_cases hmem : gnr.inner.public_key ∈ db.keys
  · rcases hr : db.node_by_key gnr.inner.public_key with _ | r
    · simp [handle_step, hmem, hr] at h
    · rcases hu : update_node_addrs gnr r with _ | ⟨b, r1⟩
      · simp [handle_step, hmem, hr, hu] at h
      · have hfields := update_node_addrs_some hu
        by_cases hv : r1.version < gnr.inner.version
        · by_cases hb : b = true
          · simp [handle_step, hmem, hr, hu, hv, hb] at h
          · have hbf : b = false := by simpa using hb
            have hr1 : r1 = r := hfields.2.2.2.2.2.1 hbf
            subst hr1
            rcases hn : update_neighbors gnr (update_version gnr r1) with ⟨nc, r3⟩
            by_cases hnc : nc = true
            · simp [handle_step, hmem, hr, hu, hv, hbf, hn, hnc] at h
            · have hncf : nc = false := by simpa using hnc
              have hn3 : r3 = update_version gnr r1 := by
                have h2 := (update_neighbors_snd gnr (update_version gnr r1)).2.1
                rw [hn] at h2
                simpa [hncf] using h2
              rcases hsg : update_signatures gnr r3 with ⟨sc, r4⟩
              simp [handle_step, hmem, hr, hu, hv, hbf, hn, hncf, hsg] at h
              obtain ⟨hdb', hsc, hc⟩ := h
              refine ⟨hc, ?_⟩
              have hr4 : r4 = r3 := by
                have h3 := (set_signatures_snd r3 gnr.signatures).2.1
                rw [show NodeRecord.set_signatures r3 gnr.signatures =
                  update_signatures gnr r3 from rfl, hsg] at h3
                simpa [hsc] using h3
              have hle : versionOnlyLe r1 (update_version gnr r1) := by
                refine ⟨rfl, rfl, rfl, rfl, rfl, ?_⟩
                exact le_of_lt hv
              rw [← hdb', hr4, hn3]
              exact dbVersionLe_insert hr hle
        · simp [handle_step, hmem, hr, hu, hv] at h
          obtain ⟨hdb', hbf, hc⟩ := h
          refine ⟨hc, ?_⟩
          have hr1 : r1 = r := hfields.2.2.2.2.2.1 hbf
          subst hr1
          rw [← hdb', insertRecord_self hr]
          exact dbVersionLe_refl db
  · rcases ha : db.add_node gnr.to_node_record with e | db1
    · simp [handle_step, hmem, ha] at h
    · simp [handle_step, hmem, ha] at h

theorem handle_loop_changed_false (l : List GossipNodeRecord) :
    ∀ db c db', handle_loop (db, c) l = some (db', false) →
      c = false ∧ dbVersionLe db db' := by
  induction l with
  | nil =>
      intro db c db' h
      simp [handle_loop] at h
      obtain ⟨hdb, hc⟩ := h
      exact ⟨hc, hdb ▸ dbVersionLe_refl db⟩
  | cons gnr rest ih =>
      intro db c db' h
      rcases hs : handle_step (db, c) gnr with _ | ⟨db1, c1⟩
      · simp [handle_loop, hs] at h
      · rw [handle_loop, hs] at h
        obtain ⟨hc1, hle1⟩ := ih db1 c1 db' h
        obtain ⟨hc, hle⟩ := handle_step_changed_false hs hc1
        exact ⟨hc, dbVersionLe_trans hle hle1⟩

theorem handle_node_records_changed_false {db db' : NeighborhoodDatabase} {g : Gossip}
    (h : handle_node_records db g = some (db', false)) : dbVersionLe db db' :=
  (handle_loop_changed_false _ db false db' h).2

theorem add_neighbor_ok_false {db db' : NeighborhoodDatabase} {x y : Key}
    (h : db.add_neighbor x y = .ok (false, db')) : db' = db := by
  rcases add_neighbor_ok h with ⟨_, h⟩ | ⟨hf, _⟩
  · exact h
  · exact absurd hf (by simp)

theorem ip_step_changed_false {rk : Key} {db db' : NeighborhoodDatabase} {c c' : Bool}
    {gnr : GossipNodeRecord}
    (h : ip_step rk (db, c) gnr = some (db', c')) (hc' : c' = false) :
    c = false ∧ db' = db := by
  subst hc'
  by_cases hcond : gnr.inner.node_addr_opt.isSome ∧ gnr.inner.public_key ≠ rk
  · rcases han : db.add_neighbor rk gnr.inner.public_key with e | ⟨f, db1⟩
    · simp [ip_step, hcond, han] at h
    · simp [ip_step, hcond, han] at h
      obtain ⟨hdb, hf, hc⟩ := h
      refine ⟨hc, ?_⟩
      rw [← hdb]
      exact add_neighbor_ok_false (hf ▸ han)
  · simp [ip_step, hcond] at h
    exact ⟨h.2, h.1.symm⟩

theorem ip_loop_changed_false (l : List GossipNodeRecord) :
    ∀ rk db c db', ip_loop rk (db, c) l = some (db', false) →
      c = false ∧ db' = db := by
  induction l with
  | nil =>
      intro rk db c db' h
      simp [ip_loop] at h
      exact ⟨h.2, h.1.symm⟩
  | cons gnr rest ih =>
      intro rk db c db' h
      rcases hs : ip_step rk (db, c) gnr with _ | ⟨db1, c1⟩
      · simp [ip_loop, hs] at h
      · rw [ip_loop, hs] at h
        obtain ⟨hc1, hdb1⟩ := ih rk db1 c1 db' h
        obtain ⟨hc, hdb⟩ := ip_step_changed_false hs hc1
        exact ⟨hc, hdb1.trans hdb⟩

theorem add_ip_neighbors_changed_false {db db' : NeighborhoodDatabase} {g : Gossip}
    (h : add_ip_neighbors db g = some (db', false)) : db' = db := by
  rcases hroot : db.root with _ | rr
  · simp [add_ip_neighbors, hroot] at h
  · rcases hl : ip_loop rr.public_key (db, false) g.node_records with _ | ⟨db1, ch⟩
    · simp [add_ip_neighbors, hroot, hl] at h
    · by_cases hch : ch = true
      · subst hch
        rcases hm : db1.node_by_key db1.this_node with _ | r
        · simp [add_ip_neighbors, hroot, hl, hm] at h
        · simp [add_ip_neighbors, hroot, hl, hm] at h
      · have hchf : ch = false := by simpa using hch
        subst hchf
        simp [add_ip_neighbors, hroot, hl] at h
        exact h.symm.trans (ip_loop_changed_false _ rr.public_key db false db1 hl).2

/-- Auxiliary for C4: per-record absorption when no address adoption happens
(`update_node_addrs` returned `false` leaving the record unchanged). -/
theorem version_gate_no_adoption_aux {db : NeighborhoodDatabase} {c : Bool}
    {gnr : GossipNodeRecord} {r : NodeRecord}
    (hr : db.node_by_key gnr.inner.public_key = some r)
    (hmem : gnr.inner.public_key ∈ db.keys)
    (hu : update_node_addrs gnr r = some (false, r))
    (hmatch : (match r.inner.node_addr_opt, gnr.inner.node_addr_opt with
       | none, some a => some a
       | old, _ => old) = r.inner.node_addr_opt) :
    ∃ db' c', handle_step (db, c) gnr = some (db', c') ∧
      ∃ r', db'.node_by_key gnr.inner.public_key = some r' ∧
        r'.inner.public_key = r.inner.public_key ∧
        r'.inner.node_addr_opt =
          (match r.inner.node_addr_opt, gnr.inner.node_addr_opt with
           | none, some a => some a
           | old, _ => old) ∧
        r'.inner.version =
          (if r.inner.version < gnr.inner.version then gnr.inner.version
           else r.inner.version) ∧
        r'.inner.neighbors =
          (if r.inner.version < gnr.inner.version ∧
              ¬(r.inner.node_addr_opt = none ∧ gnr.inner.node_addr_opt ≠ none) ∧
              ¬((∀ k ∈ gnr.inner.neighbors, k ∈ r.inner.neighbors) ∧
                (∀ k ∈ r.inner.neighbors, k ∈ gnr.inner.neighbors))
           then gnr.inner.neighbors else r.inner.neighbors) ∧
        r'.signatures =
          (if r.inner.version < gnr.inner.version ∧
              ¬(r.inner.node_addr_opt = none ∧ gnr.inner.node_addr_opt ≠ none) ∧
              ((∀ k ∈ gnr.inner.neighbors, k ∈ r.inner.neighbors) ∧
               (∀ k ∈ r.inner.neighbors, k ∈ gnr.inner.neighbors)) ∧
              r.signatures ≠ some gnr.signatures
           then some gnr.signatures else r.signatures) := by
  have hnoad : ¬(r.inner.node_addr_opt = none ∧ gnr.inner.node_addr_opt ≠ none) := by
    rintro ⟨h1, h2⟩
    rcases hga : gnr.inner.node_addr_opt with _ | a
    · exact h2 hga
    · simp [update_node_addrs, hga, NodeRecord.set_node_addr, h1] at hu
  rw [hmatch]
  by_cases hv : r.inner.version < gnr.inner.version
  · by_cases hset : (∀ k ∈ gnr.inner.neighbors, k ∈ r.inner.neighbors) ∧
      (∀ k ∈ r.inner.neighbors, k ∈ gnr.inner.neighbors)
    · rcases hsg : r.signatures with _ | existing
      · refine ⟨db.insertRecord gnr.inner.public_key { r with inner := { r.inner with version := gnr.inner.version }, signatures := some gnr.signatures }, true, ?_, { r with inner := { r.inner with version := gnr.inner.version }, signatures := some gnr.signatures }, by simp [node_by_key_insertRecord], rfl, ?_, ?_, ?_, ?_⟩
        · simp [handle_step, hmem, hr, hu, NodeRecord.version, hv, update_version,
            NodeRecord.set_version, update_neighbors, eq_true hset,
            update_signatures, NodeRecord.set_signatures, hsg]
        · simp
        · simp [hv]
        · simp [hv, eq_false hnoad, eq_true hset]
        · simp [hv, eq_false hnoad, eq_true hset, hsg]
      · by_cases hse : existing = gnr.signatures
        · refine ⟨db.insertRecord gnr.inner.public_key { r with inner := { r.inner with version := gnr.inner.version } }, false || c, ?_, { r with inner := { r.inner with version := gnr.inner.version } }, by simp [node_by_key_insertRecord], rfl, ?_, ?_, ?_, ?_⟩
          · simp [handle_step, hmem, hr, hu, NodeRecord.version, hv, update_version,
              NodeRecord.set_version, update_neighbors, eq_true hset,
              update_signatures, NodeRecord.set_signatures, hsg, hse]
          · simp
          · simp [hv]
          · simp [hv, eq_false hnoad, eq_true hset]
          · simp [hv, eq_false hnoad, eq_true hset, hsg, hse]
        · refine ⟨db.insertRecord gnr.inner.public_key { r with inner := { r.inner with version := gnr.inner.version }, signatures := some gnr.signatures }, true, ?_, { r with inner := { r.inner with version := gnr.inner.version }, signatures := some gnr.signatures }, by simp [node_by_key_insertRecord], rfl, ?_, ?_, ?_, ?_⟩
          · simp [handle_step, hmem, hr, hu, NodeRecord.version, hv, update_version,
              NodeRecord.set_version, update_neighbors, eq_true hset,
              update_signatures, NodeRecord.set_signatures, hsg, hse]
          · simp
          · simp [hv]
          · simp [hv, eq_false hnoad, eq_true hset]
          · simp [hv, eq_false hnoad, eq_true hset, hsg, hse]
    · refine ⟨db.insertRecord gnr.inner.public_key { r with inner := { r.inner with neighbors := gnr.inner.neighbors, version := gnr.inner.version } }, true, ?_, { r with inner := { r.inner with neighbors := gnr.inner.neighbors, version := gnr.inner.version } }, by simp [node_by_key_insertRecord], rfl, ?_, ?_, ?_, ?_⟩
      · simp [handle_step, hmem, hr, hu, NodeRecord.version, hv, update_version,
          NodeRecord.set_version, update_neighbors, eq_false hset]
      · simp
      · simp [hv]
      · simp [hv, eq_false hnoad, eq_false hset]
      · simp [hv, eq_false hnoad, eq_false hset]
  · refine ⟨db.insertRecord gnr.inner.public_key r, false || c, ?_, r, by simp [node_by_key_insertRecord], rfl, ?_, ?_, ?_, ?_⟩
    · simp [handle_step, hmem, hr, hu, NodeRecord.version, hv]
    · simp
    · simp [hv]
    · simp [hv]
    · simp [hv]

/-- Full characterization of the per-record absorption step on a known key:
address reconciliation, version gate, and the short-circuited neighbor and
signature replacements. -/
theorem handle_step_known_spec {db : NeighborhoodDatabase} {c : Bool}
    {gnr : GossipNodeRecord} {r : NodeRecord}
    (hr : db.node_by_key gnr.inner.public_key = some r) :
    ∃ db' c', handle_step (db, c) gnr = some (db', c') ∧
      ∃ r', db'.node_by_key gnr.inner.public_key = some r' ∧
        r'.inner.public_key = r.inner.public_key ∧
        r'.inner.node_addr_opt =
          (match r.inner.node_addr_opt, gnr.inner.node_addr_opt with
           | none, some a => some a
           | old, _ => old) ∧
        r'.inner.version =
          (if r.inner.version < gnr.inner.version then gnr.inner.version
           else r.inner.version) ∧
        r'.inner.neighbors =
          (if r.inner.version < gnr.inner.version ∧
              ¬(r.inner.node_addr_opt = none ∧ gnr.inner.node_addr_opt ≠ none) ∧
              ¬((∀ k ∈ gnr.inner.neighbors, k ∈ r.inner.neighbors) ∧
                (∀ k ∈ r.inner.neighbors, k ∈ gnr.inner.neighbors))
           then gnr.inner.neighbors else r.inner.neighbors) ∧
        r'.signatures =
          (if r.inner.version < gnr.inner.version ∧
              ¬(r.inner.node_addr_opt = none ∧ gnr.inner.node_addr_opt ≠ none) ∧
              ((∀ k ∈ gnr.inner.neighbors, k ∈ r.inner.neighbors) ∧
               (∀ k ∈ r.inner.neighbors, k ∈ gnr.inner.neighbors)) ∧
              r.signatures ≠ some gnr.signatures
           then some gnr.signatures else r.signatures) := by
  have hmem : gnr.inner.public_key ∈ db.keys := mem_keys_iff.mpr ⟨r, hr⟩
  rcases hga : gnr.inner.node_addr_opt with _ | a
  · have haux := @version_gate_no_adoption_aux db c gnr r hr hmem
      (by simp [update_node_addrs, hga])
      (by rcases r.inner.node_addr_opt with _ | o <;> simp [hga])
    rw [hga] at haux
    exact haux
  · rcases hra : r.inner.node_addr_opt with _ | old
    · -- adoption: set_node_addr succeeds
      have hu : update_node_addrs gnr r = some (true,
          { r with inner := { r.inner with node_addr_opt := some a } }) := by
        simp [update_node_addrs, hga, NodeRecord.set_node_addr, hra]
      have hadopt : r.inner.node_addr_opt = none ∧ gnr.inner.node_addr_opt ≠ none :=
        ⟨hra, by simp [hga]⟩
      by_cases hv : r.inner.version < gnr.inner.version
      · refine ⟨db.insertRecord gnr.inner.public_key { r with inner := { r.inner with node_addr_opt := some a, version := gnr.inner.version } }, true, ?_, { r with inner := { r.inner with node_addr_opt := some a, version := gnr.inner.version } }, by simp [node_by_key_insertRecord], rfl, ?_, ?_, ?_, ?_⟩
        · simp [handle_step, hmem, hr, hu, NodeRecord.version, hv, update_version,
            NodeRecord.set_version]
        · simp [hra, hga]
        · simp [hv]
        · simp [hv, eq_true hadopt]
        · simp [hv, eq_true hadopt]
      · refine ⟨db.insertRecord gnr.inner.public_key { r with inner := { r.inner with node_addr_opt := some a } }, true, ?_, { r with inner := { r.inner with node_addr_opt := some a } }, by simp [node_by_key_insertRecord], rfl, ?_, ?_, ?_, ?_⟩
        · simp [handle_step, hmem, hr, hu, NodeRecord.version, hv]
        · simp [hra, hga]
        · simp [hv]
        · simp [hv]
        · simp [hv]
    · have haux := @version_gate_no_adoption_aux db c gnr r hr hmem
        (by simp [update_node_addrs, hga, NodeRecord.set_node_addr, hra])
        (by simp [hga, hra])
      rw [hga, hra] at haux
      exact haux

/-! ### Address-preservation lemmas -/

theorem hasStoredAddr_insert_other {db : NeighborhoodDatabase} {k key : Key}
    {a : NodeAddr} {r : NodeRecord} (hk : k ≠ key) (ha : hasStoredAddr db k a) :
    hasStoredAddr (db.insertRecord key r) k a := by
  obtain ⟨r0, hr0, ha0⟩ := ha
  exact ⟨r0, by rw [node_by_key_insertRecord, if_neg hk]; exact hr0, ha0⟩

theorem hasStoredAddr_insert_same {db : NeighborhoodDatabase} {k : Key}
    {a : NodeAddr} {r : NodeRecord} (ha : r.inner.node_addr_opt = some a) :
    hasStoredAddr (db.insertRecord k r) k a :=
  ⟨r, by rw [node_by_key_insertRecord, if_pos rfl], ha⟩

theorem handle_step_exists_insert {db db' : NeighborhoodDatabase} {c c' : Bool}
    {gnr : GossipNodeRecord} (h : handle_step (db, c) gnr = some (db', c')) :
    (∃ rX, db' = db.insertRecord gnr.inner.public_key rX) ∨
    db.add_node gnr.to_node_record = .ok db' := by
  by_cases hmem : gnr.inner.public_key ∈ db.keys
  · rcases hrg : db.node_by_key gnr.inner.public_key with _ | r
    · simp [handle_step, hmem, hrg] at h
    · rcases hu : update_node_addrs gnr r with _ | ⟨b, r1⟩
      · simp [handle_step, hmem, hrg, hu] at h
      · by_cases hv : r1.version < gnr.inner.version
        · by_cases hb : b = true
          · simp [handle_step, hmem, hrg, hu, hv, hb] at h
            exact Or.inl ⟨_, h.1.symm⟩
          · have hbf : b = false := by simpa using hb
            rcases hn : update_neighbors gnr (update_version gnr r1) with ⟨nc, r3⟩
            by_cases hnc : nc = true
            · simp [handle_step, hmem, hrg, hu, hv, hbf, hn, hnc] at h
              exact Or.inl ⟨_, h.1.symm⟩
            · have hncf : nc = false := by simpa using hnc
              rcases hsgp : update_signatures gnr r3 with ⟨sc, r4⟩
              simp [handle_step, hmem, hrg, hu, hv, hbf, hn, hncf, hsgp] at h
              exact Or.inl ⟨_, h.1.symm⟩
        · simp [handle_step, hmem, hrg, hu, hv] at h
          exact Or.inl ⟨_, h.1.symm⟩
  · rcases ha : db.add_node gnr.to_node_record with e | db1
    · simp [handle_step, hmem, ha] at h
    · simp [handle_step, hmem, ha] at h
      rw [← h.1]
      exact Or.inr rfl

theorem handle_step_lookup_other {db db' : NeighborhoodDatabase} {c c' : Bool}
    {gnr : GossipNodeRecord} {k : Key}
    (h : handle_step (db, c) gnr = some (db', c')) (hk : gnr.inner.public_key ≠ k) :
    db'.node_by_key k = db.node_by_key k := by
  rcases handle_step_exists_insert h with ⟨rX, hdb⟩ | hadd
  · rw [hdb, node_by_key_insertRecord, if_neg (Ne.symm hk)]
  · rw [(add_node_ok_lookup hadd).2.2.1 k]
    simp [GossipNodeRecord.to_node_record, Ne.symm hk]

theorem handle_step_preserves_addr {db db' : NeighborhoodDatabase} {c c' : Bool}
    {gnr : GossipNodeRecord} {k : Key} {a : NodeAddr}
    (h : handle_step (db, c) gnr = some (db', c'))
    (ha : hasStoredAddr db k a) : hasStoredAddr db' k a := by
  by_cases hk : gnr.inner.public_key = k
  · subst hk
    obtain ⟨r0, hr0, ha0⟩ := ha
    obtain ⟨db2, c2, hstep, r', hr', -, haddr', -, -, -⟩ := @handle_step_known_spec db c gnr r0 hr0
    rw [h] at hstep
    injection hstep with hpair
    injection hpair with hdb hc
    subst hdb
    refine ⟨r', hr', ?_⟩
    rw [haddr', ha0]
  · obtain ⟨r0, hr0, ha0⟩ := ha
    exact ⟨r0, (handle_step_lookup_other h hk).trans hr0, ha0⟩

theorem handle_loop_preserves_addr (l : List GossipNodeRecord) :
    ∀ db c db' c' k a, handle_loop (db, c) l = some (db', c') →
      hasStoredAddr db k a → hasStoredAddr db' k a := by
  induction l with
  | nil =>
      intro db c db' c' k a h ha
      simp [handle_loop] at h
      exact h.1 ▸ ha
  | cons gnr rest ih =>
      intro db c db' c' k a h ha
      rcases hs : handle_step (db, c) gnr with _ | ⟨db1, c1⟩
      · simp [handle_loop, hs] at h
      · rw [handle_loop, hs] at h
        exact ih db1 c1 db' c' k a h (handle_step_preserves_addr hs ha)

theorem add_neighbor_preserves_addr {db db' : NeighborhoodDatabase} {x y : Key}
    {f : Bool} {k : Key} {a : NodeAddr} (h : db.add_neighbor x y = .ok (f, db'))
    (ha : hasStoredAddr db k a) : hasStoredAddr db' k a := by
  rcases add_neighbor_ok h with ⟨-, hdb⟩ | ⟨-, node, hnode, hdb⟩
  · exact hdb ▸ ha
  · subst hdb
    by_cases hk : k = x
    · subst hk
      obtain ⟨r0, hr0, ha0⟩ := ha
      rw [hr0] at hnode
      injection hnode with hnode
      exact hasStoredAddr_insert_same (by rw [← hnode]; exact ha0)
    · exact hasStoredAddr_insert_other hk ha

theorem ip_step_preserves_addr {rk : Key} {db db' : NeighborhoodDatabase}
    {c c' : Bool} {gnr : GossipNodeRecord} {k : Key} {a : NodeAddr}
    (h : ip_step rk (db, c) gnr = some (db', c'))
    (ha : hasStoredAddr db k a) : hasStoredAddr db' k a := by
  by_cases hcond : gnr.inner.node_addr_opt.isSome ∧ gnr.inner.public_key ≠ rk
  · rcases han : db.add_neighbor rk gnr.inner.public_key with e | ⟨f, db1⟩
    · simp [ip_step, hcond, han] at h
    · simp [ip_step, hcond, han] at h
      exact h.1 ▸ add_neighbor_preserves_addr han ha
  · simp [ip_step, hcond] at h
    exact h.1 ▸ ha

theorem ip_loop_preserves_addr (l : List GossipNodeRecord) :
    ∀ rk db c db' c' k a, ip_loop rk (db, c) l = some (db', c') →
      hasStoredAddr db k a → hasStoredAddr db' k a := by
  induction l with
  | nil =>
      intro rk db c db' c' k a h ha
      simp [ip_loop] at h
      exact h.1 ▸ ha
  | cons gnr rest ih =>
      intro rk db c db' c' k a h ha
      rcases hs : ip_step rk (db, c) gnr with _ | ⟨db1, c1⟩
      · simp [ip_loop, hs] at h
      · rw [ip_loop, hs] at h
        exact ih rk db1 c1 db' c' k a h (ip_step_preserves_addr hs ha)

theorem add_ip_neighbors_preserves_addr {db db' : NeighborhoodDatabase} {c : Bool}
    {g : Gossip} {k : Key} {a : NodeAddr}
    (h : add_ip_neighbors db g = some (db', c))
    (ha : hasStoredAddr db k a) : hasStoredAddr db' k a := by
  rcases hroot : db.root with _ | rr
  · simp [add_ip_neighbors, hroot] at h
  · rcases hl : ip_loop rr.public_key (db, false) g.node_records with _ | ⟨db1, ch⟩
    · simp [add_ip_neighbors, hroot, hl] at h
    · have ha1 : hasStoredAddr db1 k a :=
        ip_loop_preserves_addr _ rr.public_key db false db1 ch k a hl ha
      by_cases hch : ch = true
      · subst hch
        rcases hm : db1.node_by_key db1.this_node with _ | r
        · simp [add_ip_neighbors, hroot, hl, hm] at h
        · simp [add_ip_neighbors, hroot, hl, hm] at h
          rw [← h.1]
          by_cases hk : k = db1.this_node
          · subst hk
            obtain ⟨r0, hr0, ha0⟩ := ha1
            rw [hr0] at hm
            injection hm with hm
            exact hasStoredAddr_insert_same
              (by rw [← hm]; exact (show r0.increment_version.inner.node_addr_opt =
                r0.inner.node_addr_opt from rfl).trans ha0)
          · exact hasStoredAddr_insert_other hk ha1
      · have hchf : ch = false := by simpa using hch
        subst hchf
        simp [add_ip_neighbors, hroot, hl] at h
        exact h.1 ▸ ha1

theorem handle_preserves_addr {db db' : NeighborhoodDatabase} {c : Bool} {g : Gossip}
    {k : Key} {a : NodeAddr} (h : handle db g = some (db', c))
    (ha : hasStoredAddr db k a) : hasStoredAddr db' k a := by
  rcases hA : handle_node_records db g with _ | ⟨db1, c1⟩
  · simp [handle, hA] at h
  · rcases hB : add_ip_neighbors db1 g with _ | ⟨db2, c2⟩
    · simp [handle, hA, hB] at h
    · simp [handle, hA, hB] at h
      have ha1 : hasStoredAddr db1 k a :=
        handle_loop_preserves_addr _ db false db1 c1 k a hA ha
      exact h.1 ▸ add_ip_neighbors_preserves_addr hB ha1

/-! ### Version-preservation lemmas for Phase B -/

theorem add_neighbor_ok_same_versions {db db' : NeighborhoodDatabase} {x y : Key}
    {f : Bool} (h : db.add_neighbor x y = .ok (f, db')) :
    db'.this_node = db.this_node ∧
    ∀ k, (db'.node_by_key k).map (fun r => r.inner.version) =
      (db.node_by_key k).map (fun r => r.inner.version) := by
  rcases add_neighbor_ok h with ⟨-, hdb⟩ | ⟨-, node, hnode, hdb⟩
  · exact hdb ▸ ⟨rfl, fun k => rfl⟩
  · subst hdb
    refine ⟨rfl, fun k => ?_⟩
    rw [node_by_key_insertRecord]
    by_cases hk : k = x
    · subst hk
      rw [if_pos rfl, hnode]
      simp
    · rw [if_neg hk]

theorem ip_step_same_versions {rk : Key} {db db' : NeighborhoodDatabase}
    {c c' : Bool} {gnr : GossipNodeRecord}
    (h : ip_step rk (db, c) gnr = some (db', c')) :
    db'.this_node = db.this_node ∧
    ∀ k, (db'.node_by_key k).map (fun r => r.inner.version) =
      (db.node_by_key k).map (fun r => r.inner.version) := by
  by_cases hcond : gnr.inner.node_addr_opt.isSome ∧ gnr.inner.public_key ≠ rk
  · rcases han : db.add_neighbor rk gnr.inner.public_key with e | ⟨f, db1⟩
    · simp [ip_step, hcond, han] at h
    · simp [ip_step, hcond, han] at h
      exact h.1 ▸ add_neighbor_ok_same_versions han
  · simp [ip_step, hcond] at h
    exact h.1 ▸ ⟨rfl, fun k => rfl⟩

theorem ip_loop_same_versions (l : List GossipNodeRecord) :
    ∀ rk db c db' c', ip_loop rk (db, c) l = some (db', c') →
      db'.this_node = db.this_node ∧
      ∀ k, (db'.node_by_key k).map (fun r => r.inner.version) =
        (db.node_by_key k).map (fun r => r.inner.version) := by
  induction l with
  | nil =>
      intro rk db c db' c' h
      simp [ip_loop] at h
      exact h.1 ▸ ⟨rfl, fun k => rfl⟩
  | cons gnr rest ih =>
      intro rk db c db' c' h
      rcases hs : ip_step rk (db, c) gnr with _ | ⟨db1, c1⟩
      · simp [ip_loop, hs] at h
      · rw [ip_loop, hs] at h
        obtain ⟨ht1, hv1⟩ := ip_step_same_versions hs
        obtain ⟨ht2, hv2⟩ := ih rk db1 c1 db' c' h
        exact ⟨ht2.trans ht1, fun k => (hv2 k).trans (hv1 k)⟩

/-! ### IP-index preservation through Phase B -/

theorem add_neighbor_ok_by_ip {db db' : NeighborhoodDatabase} {x y : Key}
    {f : Bool} (h : db.add_neighbor x y = .ok (f, db')) :
    db'.by_ip_addr = db.by_ip_addr := by
  rcases add_neighbor_ok h with ⟨-, hdb⟩ | ⟨-, node, -, hdb⟩
  · rw [hdb]
  · rw [hdb]
    rfl

theorem ip_step_by_ip {rk : Key} {db db' : NeighborhoodDatabase} {c c' : Bool}
    {gnr : GossipNodeRecord} (h : ip_step rk (db, c) gnr = some (db', c')) :
    db'.by_ip_addr = db.by_ip_addr := by
  by_cases hcond : gnr.inner.node_addr_opt.isSome ∧ gnr.inner.public_key ≠ rk
  · rcases han : db.add_neighbor rk gnr.inner.public_key with e | ⟨f, db1⟩
    · simp [ip_step, hcond, han] at h
    · simp [ip_step, hcond, han] at h
      exact h.1 ▸ add_neighbor_ok_by_ip han
  · simp [ip_step, hcond] at h
    rw [← h.1]

theorem ip_loop_by_ip (l : List GossipNodeRecord) :
    ∀ rk db c db' c', ip_loop rk (db, c) l = some (db', c') →
      db'.by_ip_addr = db.by_ip_addr := by
  induction l with
  | nil =>
      intro rk db c db' c' h
      simp [ip_loop] at h
      rw [← h.1]
  | cons gnr rest ih =>
      intro rk db c db' c' h
      rcases hs : ip_step rk (db, c) gnr with _ | ⟨db1, c1⟩
      · simp [ip_loop, hs] at h
      · rw [ip_loop, hs] at h
        exact (ih rk db1 c1 db' c' h).trans (ip_step_by_ip hs)

theorem add_ip_neighbors_by_ip {db db' : NeighborhoodDatabase} {c : Bool}
    {g : Gossip} (h : add_ip_neighbors db g = some (db', c)) :
    db'.by_ip_addr = db.by_ip_addr := by
  rcases hroot : db.root with _ | rr
  · simp [add_ip_neighbors, hroot] at h
  · rcases hl : ip_loop rr.public_key (db, false) g.node_records with _ | ⟨db1, ch⟩
    · simp [add_ip_neighbors, hroot, hl] at h
    · have hip1 : db1.by_ip_addr = db.by_ip_addr :=
        ip_loop_by_ip _ rr.public_key db false db1 ch hl
      by_cases hch : ch = true
      · subst hch
        rcases hm : db1.node_by_key db1.this_node with _ | r
        · simp [add_ip_neighbors, hroot, hl, hm] at h
        · simp [add_ip_neighbors, hroot, hl, hm] at h
          rw [← h.1]
          exact hip1
      · have hchf : ch = false := by simpa using hch
        subst hchf
        simp [add_ip_neighbors, hroot, hl] at h
        exact h.1 ▸ hip1

theorem remove_neighbor_record_spec (r : NodeRecord) (k : Key) :
    (r.remove_neighbor k).1 = r.has_neighbor k ∧
    (r.remove_neighbor k).2.inner.public_key = r.inner.public_key ∧
    (r.remove_neighbor k).2.inner.node_addr_opt = r.inner.node_addr_opt ∧
    (r.remove_neighbor k).2.inner.neighbors = r.inner.neighbors.erase k ∧
    (r.remove_neighbor k).2.signatures = r.signatures := by
  by_cases hmem : k ∈ r.inner.neighbors <;>
    simp [NodeRecord.remove_neighbor, NodeRecord.has_neighbor, hmem,
      List.erase_of_not_mem]

/-! ### IP-uniqueness preservation -/

theorem addrIpClash_symm_false {x y : Option NodeAddr}
    (h : addrIpClash x y = false) : addrIpClash y x = false := by
  cases x <;> cases y <;> simp [addrIpClash] at h ⊢
  exact fun e => h e.symm

theorem addrIpClash_none_left (y : Option NodeAddr) : addrIpClash none y = false := by
  cases y <;> rfl

theorem addrIpClash_none_right (x : Option NodeAddr) : addrIpClash x none = false := by
  cases x <;> rfl

theorem add_node_ok_by_public_key {db : NeighborhoodDatabase} {r : NodeRecord}
    {db' : NeighborhoodDatabase} (h : db.add_node r = .ok db') :
    db'.by_public_key = alistInsert db.by_public_key r.inner.public_key r := by
  by_cases hmem : r.inner.public_key ∈ db.keys
  · simp [add_node, hmem] at h
  · rcases haddr : r.inner.node_addr_opt with _ | a <;>
      · simp [add_node, hmem, haddr] at h
        rw [← h]
        rfl

theorem remove_neighbor_ok_shape {db db' : NeighborhoodDatabase} {k : Key} {f : Bool}
    (h : db.remove_neighbor k = some (.ok (f, db'))) :
    ∃ r rr, db.node_by_key k = some r ∧
      alistGet (alistInsert db.by_public_key k r.unset_node_addr) db.this_node = some rr ∧
      db'.this_node = db.this_node ∧
      db'.by_public_key =
        alistInsert (alistInsert db.by_public_key k r.unset_node_addr) db.this_node
          (rr.remove_neighbor k).2 := by
  rcases hr : db.node_by_key k with _ | r
  · simp [remove_neighbor, hr] at h
  · have hr3 : alistGet db.by_public_key k = some r := hr
    rcases haddr : r.inner.node_addr_opt with _ | a <;>
      rcases hrr : alistGet (alistInsert db.by_public_key k r.unset_node_addr)
        db.this_node with _ | rr <;>
      simp [remove_neighbor, hr3, NodeRecord.node_addr_opt, haddr, node_by_key,
        insertRecord, hrr] at h <;>
      exact ⟨r, rr, rfl, hrr, by rw [← h.2], by rw [← h.2]⟩

theorem ipConsistent_insert {l : List (Key × NodeRecord)} {k : Key} {v v' : NodeRecord}
    (hv : alistGet l k = some v)
    (haddr : v'.inner.node_addr_opt = v.inner.node_addr_opt ∨
      v'.inner.node_addr_opt = none)
    (h : ipConsistent l) : ipConsistent (alistInsert l k v') := by
  intro p hp q hq hne
  rcases mem_alistInsert hp with hp' | hp' <;> rcases mem_alistInsert hq with hq' | hq'
  · exact absurd (hq' ▸ hp' ▸ rfl) hne
  · subst hp'
    rcases haddr with ha | ha
    · rw [ha]
      exact h (k, v) (alistGet_mem hv) q hq' hne
    · rw [ha]
      exact addrIpClash_none_left _
  · subst hq'
    apply addrIpClash_symm_false
    rcases haddr with ha | ha
    · rw [ha]
      exact h (k, v) (alistGet_mem hv) p hp' (Ne.symm hne)
    · rw [ha]
      exact addrIpClash_none_left _
  · exact h p hp' q hq' hne

theorem new_by_public_key (k : Key) (addr : NodeAddr) (b : Bool) (s : NodeSignatures) :
    (NeighborhoodDatabase.new k addr b s).by_public_key =
      [(k, ⟨⟨k, some addr, b, [], 0⟩, some s⟩)] := by
  simp [NeighborhoodDatabase.new, add_node, keys, insertRecord, alistInsert]

theorem new_ipConsistent (k : Key) (addr : NodeAddr) (b : Bool) (s : NodeSignatures) :
    ipConsistent (NeighborhoodDatabase.new k addr b s).by_public_key := by
  rw [new_by_public_key]
  intro p hp q hq hne
  simp at hp hq
  exact absurd (hq ▸ hp ▸ rfl) hne

/-! ### No-self-neighbor preservation -/

theorem goodInsert {l : List (Key × NodeRecord)} {k : Key} {v' : NodeRecord}
    (hpk : v'.inner.public_key = k)
    (hns : v'.inner.public_key ∉ v'.inner.neighbors)
    (h : wellKeyed l ∧ noSelfNeighbor l) :
    wellKeyed (alistInsert l k v') ∧ noSelfNeighbor (alistInsert l k v') := by
  constructor <;> intro p hp <;> rcases mem_alistInsert hp with hp' | hp'
  · rw [hp']
    exact hpk
  · exact h.1 p hp'
  · rw [hp']
    exact hns
  · exact h.2 p hp'

theorem is_not_invalid_no_self {gnr : GossipNodeRecord}
    (h : is_not_invalid gnr = true) :
    gnr.inner.public_key ∉ gnr.inner.neighbors := by
  simp [is_not_invalid] at h
  exact h.2.2

theorem new_good (k : Key) (addr : NodeAddr) (b : Bool) (s : NodeSignatures) :
    wellKeyed (NeighborhoodDatabase.new k addr b s).by_public_key ∧
    noSelfNeighbor (NeighborhoodDatabase.new k addr b s).by_public_key := by
  rw [new_by_public_key]
  constructor <;> intro p hp <;> simp [List.mem_singleton.mp hp]

theorem add_neighbor_good {db db' : NeighborhoodDatabase} {x y : Key} {f : Bool}
    (h : db.add_neighbor x y = .ok (f, db')) (hxy : x ≠ y)
    (hg : wellKeyed db.by_public_key ∧ noSelfNeighbor db.by_public_key) :
    wellKeyed db'.by_public_key ∧ noSelfNeighbor db'.by_public_key := by
  rcases add_neighbor_ok h with ⟨-, rfl⟩ | ⟨-, node, hnode, rfl⟩
  · exact hg
  · have hpk : node.inner.public_key = x := hg.1 (x, node) (alistGet_mem hnode)
    refine goodInsert hpk ?_ hg
    intro hmem
    rcases List.mem_append.mp hmem with hmem' | hmem'
    · exact hg.2 (x, node) (alistGet_mem hnode) hmem'
    · exact hxy (hpk.symm.trans (List.mem_singleton.mp hmem'))

theorem remove_neighbor_good {db db' : NeighborhoodDatabase} {k : Key} {f : Bool}
    (h : db.remove_neighbor k = some (.ok (f, db')))
    (hg : wellKeyed db.by_public_key ∧ noSelfNeighbor db.by_public_key) :
    wellKeyed db'.by_public_key ∧ noSelfNeighbor db'.by_public_key := by
  obtain ⟨r, rr, hr, hrr, -, hbp⟩ := remove_neighbor_ok_shape h
  have hg1 : wellKeyed (alistInsert db.by_public_key k r.unset_node_addr) ∧
      noSelfNeighbor (alistInsert db.by_public_key k r.unset_node_addr) := by
    refine goodInsert ?_ ?_ hg
    · exact hg.1 (k, r) (alistGet_mem hr)
    · exact hg.2 (k, r) (alistGet_mem hr)
  rw [hbp]
  obtain ⟨-, hpk2, -, hnb2, -⟩ := remove_neighbor_record_spec rr k
  refine goodInsert ?_ ?_ hg1
  · rw [hpk2]
    exact hg1.1 (db.this_node, rr) (alistGet_mem hrr)
  · rw [hpk2, hnb2]
    intro hmem
    exact hg1.2 (db.this_node, rr) (alistGet_mem hrr) (List.mem_of_mem_erase hmem)

theorem handle_step_good {db db' : NeighborhoodDatabase} {c c' : Bool}
    {gnr : GossipNodeRecord}
    (h : handle_step (db, c) gnr = some (db', c'))
    (hval : is_not_invalid gnr = true)
    (hg : wellKeyed db.by_public_key ∧ noSelfNeighbor db.by_public_key) :
    wellKeyed db'.by_public_key ∧ noSelfNeighbor db'.by_public_key := by
  by_cases hmem : gnr.inner.public_key ∈ db.keys
  · obtain ⟨r, hr⟩ := mem_keys_iff.mp hmem
    obtain ⟨db2, c2, hstep, r', hr', hpk', -, -, hnb', -⟩ :=
      @handle_step_known_spec db c gnr r hr
    rw [h] at hstep
    injection hstep with hpair
    injection hpair with hdb hc
    subst hdb
    rcases handle_step_exists_insert h with ⟨rX, hdb1⟩ | hadd
    · have hrx : rX = r' := by
        rw [hdb1, node_by_key_insertRecord, if_pos rfl] at hr'
        injection hr'
      subst hrx
      rw [hdb1]
      have hrpk : r.inner.public_key = gnr.inner.public_key :=
        hg.1 (gnr.inner.public_key, r) (alistGet_mem hr)
      refine goodInsert (hpk'.trans hrpk) ?_ hg
      by_cases hcond : r.inner.version < gnr.inner.version ∧
          ¬(r.inner.node_addr_opt = none ∧ gnr.inner.node_addr_opt ≠ none) ∧
          ¬((∀ k ∈ gnr.inner.neighbors, k ∈ r.inner.neighbors) ∧
            (∀ k ∈ r.inner.neighbors, k ∈ gnr.inner.neighbors))
      · rw [if_pos hcond] at hnb'
        rw [hnb', hpk', hrpk]
        exact is_not_invalid_no_self hval
      · rw [if_neg hcond] at hnb'
        rw [hnb', hpk']
        exact hg.2 (gnr.inner.public_key, r) (alistGet_mem hr)
    · exact absurd (show gnr.to_node_record.inner.public_key ∈ db.keys from hmem)
        (add_node_ok_lookup hadd).2.1
  · rcases hadd : db.add_node gnr.to_node_record with e | db1
    · simp [handle_step, hmem, hadd] at h
    · simp [handle_step, hmem, hadd] at h
      rw [← h.1, add_node_ok_by_public_key hadd]
      exact goodInsert rfl (is_not_invalid_no_self hval) hg

theorem handle_loop_good (l : List GossipNodeRecord) :
    ∀ db c db' c', handle_loop (db, c) l = some (db', c') →
      (∀ gnr ∈ l, is_not_invalid gnr = true) →
      wellKeyed db.by_public_key ∧ noSelfNeighbor db.by_public_key →
      wellKeyed db'.by_public_key ∧ noSelfNeighbor db'.by_public_key := by
  induction l with
  | nil =>
      intro db c db' c' h _ hg
      simp [handle_loop] at h
      exact h.1 ▸ hg
  | cons gnr rest ih =>
      intro db c db' c' h hval hg
      rcases hs : handle_step (db, c) gnr with _ | ⟨db1, c1⟩
      · simp [handle_loop, hs] at h
      · rw [handle_loop, hs] at h
        exact ih db1 c1 db' c' h (fun g hgm => hval g (List.mem_cons_of_mem _ hgm))
          (handle_step_good hs (hval gnr (List.mem_cons_self gnr rest)) hg)

theorem ip_step_good {rk : Key} {db db' : NeighborhoodDatabase} {c c' : Bool}
    {gnr : GossipNodeRecord}
    (h : ip_step rk (db, c) gnr = some (db', c'))
    (hg : wellKeyed db.by_public_key ∧ noSelfNeighbor db.by_public_key) :
    wellKeyed db'.by_public_key ∧ noSelfNeighbor db'.by_public_key := by
  by_cases hcond : gnr.inner.node_addr_opt.isSome ∧ gnr.inner.public_key ≠ rk
  · rcases han : db.add_neighbor rk gnr.inner.public_key with e | ⟨f, db1⟩
    · simp [ip_step, hcond, han] at h
    · simp [ip_step, hcond, han] at h
      exact h.1 ▸ add_neighbor_good han (Ne.symm hcond.2) hg
  · simp [ip_step, hcond] at h
    exact h.1 ▸ hg

theorem ip_loop_good (l : List GossipNodeRecord) :
    ∀ rk db c db' c', ip_loop rk (db, c) l = some (db', c') →
      wellKeyed db.by_public_key ∧ noSelfNeighbor db.by_public_key →
      wellKeyed db'.by_public_key ∧ noSelfNeighbor db'.by_public_key := by
  induction l with
  | nil =>
      intro rk db c db' c' h hg
      simp [ip_loop] at h
      exact h.1 ▸ hg
  | cons gnr rest ih =>
      intro rk db c db' c' h hg
      rcases hs : ip_step rk (db, c) gnr with _ | ⟨db1, c1⟩
      · simp [ip_loop, hs] at h
      · rw [ip_loop, hs] at h
        exact ih rk db1 c1 db' c' h (ip_step_good hs hg)

theorem add_ip_neighbors_good {db db' : NeighborhoodDatabase} {c : Bool} {g : Gossip}
    (h : add_ip_neighbors db g = some (db', c))
    (hg : wellKeyed db.by_public_key ∧ noSelfNeighbor db.by_public_key) :
    wellKeyed db'.by_public_key ∧ noSelfNeighbor db'.by_public_key := by
  rcases hroot : db.root with _ | rr
  · simp [add_ip_neighbors, hroot] at h
  · rcases hl : ip_loop rr.public_key (db, false) g.node_records with _ | ⟨db1, ch⟩
    · simp [add_ip_neighbors, hroot, hl] at h
    · have hg1 := ip_loop_good _ rr.public_key db false db1 ch hl hg
      by_cases hch : ch = true
      · subst hch
        rcases hm : db1.node_by_key db1.this_node with _ | r
        · simp [add_ip_neighbors, hroot, hl, hm] at h
        · simp [add_ip_neighbors, hroot, hl, hm] at h
          rw [← h.1]
          have hrpk : r.inner.public_key = db1.this_node :=
            hg1.1 (db1.this_node, r) (alistGet_mem hm)
          refine goodInsert hrpk ?_ hg1
          exact hg1.2 (db1.this_node, r) (alistGet_mem hm)
      · have hchf : ch = false := by simpa using hch
        subst hchf
        simp [add_ip_neighbors, hroot, hl] at h
        exact h.1 ▸ hg1

theorem handle_good {db db' : NeighborhoodDatabase} {c : Bool} {g : Gossip}
    (h : handle db g = some (db', c))
    (hg : wellKeyed db.by_public_key ∧ noSelfNeighbor db.by_public_key) :
    wellKeyed db'.by_public_key ∧ noSelfNeighbor db'.by_public_key := by
  rcases hA : handle_node_records db g with _ | ⟨db1, c1⟩
  · simp [handle, hA] at h
  · rcases hB : add_ip_neighbors db1 g with _ | ⟨db2, c2⟩
    · simp [handle, hA, hB] at h
    · simp [handle, hA, hB] at h
      have hg1 := handle_loop_good _ db false db1 c1 hA
        (fun gnr hgm => List.of_mem_filter hgm) hg
      exact h.1 ▸ add_ip_neighbors_good hB hg1

theorem reach_guarded_good {db : NeighborhoodDatabase} (h : ReachGuarded db) :
    wellKeyed db.by_public_key ∧ noSelfNeighbor db.by_public_key := by
  induction h with
  | new k addr b s => exact new_good k addr b s
  | @add_node db r db' hre hok hns ih =>
      rw [add_node_ok_by_public_key hok]
      exact goodInsert rfl hns ih
  | @add_neighbor db x y f db' hre hok hxy ih => exact add_neighbor_good hok hxy ih
  | @remove_neighbor db k f db' hre hok ih => exact remove_neighbor_good hok ih
  | @handle db g db' c hre hok ih => exact handle_good hok ih

/-! ### Claim theorems -/

/-- C1 (counterexample): changed-flag soundness fails.  On `c1Gossip` —
a known key whose incoming record carries a strictly newer version but
identical address, neighbor set and signatures — `handle` returns `false`,
yet the post-call database `c1Post` differs from `c1Db`: record `[2]`'s
stored version advanced from 0 to 3. -/
theorem changed_flag_soundness_counterexample :
    handle c1Db c1Gossip = some (c1Post, false) ∧
    c1Post ≠ c1Db ∧
    (c1Post.node_by_key [2]).map (·.inner.version) = some 3 ∧
    (c1Db.node_by_key [2]).map (·.inner.version) = some 0 :=
  ⟨by decide, by decide, by decide, by decide⟩

/-- C1 (amended): if `handle` returns `false`, the database is observably
unchanged except that stored version numbers may have advanced: the root
designation and IP index are identical, every key resolves exactly as before,
and each record agrees on address, bootstrap flag, neighbors and signatures,
with its version at least the old one (version-only updates under the version
gate are deliberately not reported as changes). -/
theorem changed_flag_version_only {db db' : NeighborhoodDatabase} {g : Gossip}
    (h : handle db g = some (db', false)) : dbVersionLe db db' := by
  rcases hA : handle_node_records db g with _ | ⟨db1, c1⟩
  · simp [handle, hA] at h
  · rcases hB : add_ip_neighbors db1 g with _ | ⟨db2, c2⟩
    · simp [handle, hA, hB] at h
    · simp [handle, hA, hB] at h
      obtain ⟨hdb, hc2, hc1⟩ := h
      subst hc1; subst hc2
      rw [← hdb, add_ip_neighbors_changed_false hB]
      exact handle_node_records_changed_false hA

/-- C1 witness: the amended statement applied to the concrete scenario where
`handle` returns `false` while a version silently advances. -/
theorem changed_flag_version_only_witness : dbVersionLe c1Db c1Post :=
  @changed_flag_version_only c1Db c1Post c1Gossip (by decide)

/-- C2 (code-bug exhibit): `handle` panics on input data.  `c2Gnr` is rejected
by the validity filter (self-neighbor) so Phase A never admits it, yet it
carries a `node_addr`, so Phase B calls
`add_neighbor(root, [2]).expect("Node magically disappeared")` on the unknown
key `[2]` and panics (modelled as `none`). -/
theorem handle_panics_on_filtered_record_with_addr :
    is_not_invalid c2Gnr = false ∧
    c2Gnr.inner.node_addr_opt.isSome = true ∧
    handle c2Db ⟨[c2Gnr]⟩ = none :=
  ⟨by decide, by decide, by decide⟩

/-- C4 (counterexample): the version gate does not replace neighbors whenever
the incoming set differs.  `c4Gnr` has a strictly newer version (1 > 0) and a
differing neighbor set (`[[1]]` vs `[]`), but because the address adoption in
the same record reported a change, the short-circuited `||` chain never calls
`update_neighbors`: post-merge the stored neighbors are still `[]` while the
version did advance to 1. -/
theorem version_gate_counterexample :
    c4Db.node_by_key [2] = some c4Rec2 ∧
    c4Rec2.inner.version < c4Gnr.inner.version ∧
    ¬(∀ k ∈ c4Gnr.inner.neighbors, k ∈ c4Rec2.inner.neighbors) ∧
    handle c4Db ⟨[c4Gnr]⟩ = some (c4Post, true) ∧
    (c4Post.node_by_key [2]).map (·.inner.neighbors) = some [] ∧
    (c4Post.node_by_key [2]).map (·.inner.version) = some 1 :=
  ⟨by decide, by decide, by decide, by decide, by decide, by decide⟩

/-- C3: address immutability.  If the record stored under `k` carries
`node_addr_opt = Some a`, then after any sequence of `handle` calls (no
`remove_neighbor` intervening) that does not panic, the record under `k` still
carries exactly `Some a`: an incoming gossip record with a different address
for `k` is rejected for that field and the stored address kept. -/
theorem address_immutability {gs : List Gossip} :
    ∀ {db db' : NeighborhoodDatabase} {k : Key} {a : NodeAddr},
      hasStoredAddr db k a → handleSeq db gs = some db' → hasStoredAddr db' k a := by
  induction gs with
  | nil =>
      intro db db' k a ha h
      simp [handleSeq] at h
      exact h ▸ ha
  | cons g rest ih =>
      intro db db' k a ha h
      rcases hg : handle db g with _ | ⟨db1, c1⟩
      · simp [handleSeq, hg] at h
      · rw [handleSeq, hg] at h
        exact ih (handle_preserves_addr hg ha) h

/-- C3 witness: gossip carrying a different address (3.3.3.3) for key `[2]`
is rejected; the stored address 2.2.2.2 is kept across the merge. -/
theorem address_immutability_witness :
    handleSeq c3Db [c3Gossip] = some c3Post ∧ hasStoredAddr c3Post [2] ⟨2, [2]⟩ :=
  ⟨by decide, @address_immutability [c3Gossip] c3Db c3Post [2] ⟨2, [2]⟩
    ⟨c3Rec2, by decide, by decide⟩ (by decide)⟩

/-- C4 (amended): per-record absorption of a known key (the step `handle`
performs for each valid gossip record, via `handle_node_records`).  Address
reconciliation (`None → Some` adoption) always applies.  When
`incoming.version > local.version` the stored version advances to
`incoming.version`; the neighbors are replaced by the incoming list only when
additionally no address adoption happened in this record and the neighbor sets
differ; the signatures are replaced only when additionally the neighbor sets
were equal and the signatures differ (short-circuited `||`).  When
`incoming.version ≤ local.version`, neighbors and signatures are untouched
while address adoption still takes place. -/
theorem version_gate_amended {db : NeighborhoodDatabase} {c : Bool}
    {gnr : GossipNodeRecord} {r : NodeRecord}
    (hr : db.node_by_key gnr.inner.public_key = some r) :
    ∃ db' c', handle_step (db, c) gnr = some (db', c') ∧
      ∃ r', db'.node_by_key gnr.inner.public_key = some r' ∧
        r'.inner.public_key = r.inner.public_key ∧
        r'.inner.node_addr_opt =
          (match r.inner.node_addr_opt, gnr.inner.node_addr_opt with
           | none, some a => some a
           | old, _ => old) ∧
        r'.inner.version =
          (if r.inner.version < gnr.inner.version then gnr.inner.version
           else r.inner.version) ∧
        r'.inner.neighbors =
          (if r.inner.version < gnr.inner.version ∧
              ¬(r.inner.node_addr_opt = none ∧ gnr.inner.node_addr_opt ≠ none) ∧
              ¬((∀ k ∈ gnr.inner.neighbors, k ∈ r.inner.neighbors) ∧
                (∀ k ∈ r.inner.neighbors, k ∈ gnr.inner.neighbors))
           then gnr.inner.neighbors else r.inner.neighbors) ∧
        r'.signatures =
          (if r.inner.version < gnr.inner.version ∧
              ¬(r.inner.node_addr_opt = none ∧ gnr.inner.node_addr_opt ≠ none) ∧
              ((∀ k ∈ gnr.inner.neighbors, k ∈ r.inner.neighbors) ∧
               (∀ k ∈ r.inner.neighbors, k ∈ gnr.inner.neighbors)) ∧
              r.signatures ≠ some gnr.signatures
           then some gnr.signatures else r.signatures) :=
  handle_step_known_spec hr

/-- C4 witness: the amended per-record characterization instantiated at the
short-circuit scenario. -/
theorem version_gate_amended_witness :
    ∃ db' c', handle_step (c4Db, false) c4Gnr = some (db', c') ∧
      ∃ r', db'.node_by_key c4Gnr.inner.public_key = some r' ∧
        r'.inner.public_key = c4Rec2.inner.public_key ∧
        r'.inner.node_addr_opt =
          (match c4Rec2.inner.node_addr_opt, c4Gnr.inner.node_addr_opt with
           | none, some a => some a
           | old, _ => old) ∧
        r'.inner.version =
          (if c4Rec2.inner.version < c4Gnr.inner.version then c4Gnr.inner.version
           else c4Rec2.inner.version) ∧
        r'.inner.neighbors =
          (if c4Rec2.inner.version < c4Gnr.inner.version ∧
              ¬(c4Rec2.inner.node_addr_opt = none ∧ c4Gnr.inner.node_addr_opt ≠ none) ∧
              ¬((∀ k ∈ c4Gnr.inner.neighbors, k ∈ c4Rec2.inner.neighbors) ∧
                (∀ k ∈ c4Rec2.inner.neighbors, k ∈ c4Gnr.inner.neighbors))
           then c4Gnr.inner.neighbors else c4Rec2.inner.neighbors) ∧
        r'.signatures =
          (if c4Rec2.inner.version < c4Gnr.inner.version ∧
              ¬(c4Rec2.inner.node_addr_opt = none ∧ c4Gnr.inner.node_addr_opt ≠ none) ∧
              ((∀ k ∈ c4Gnr.inner.neighbors, k ∈ c4Rec2.inner.neighbors) ∧
               (∀ k ∈ c4Rec2.inner.neighbors, k ∈ c4Gnr.inner.neighbors)) ∧
              c4Rec2.signatures ≠ some c4Gnr.signatures
           then some c4Gnr.signatures else c4Rec2.signatures) :=
  @version_gate_amended c4Db false c4Gnr c4Rec2 (by decide)

/-- C5: root edge induction.  Phase B (`add_ip_neighbors`) attempts
`add_neighbor(root, key)` for every gossip record carrying an address whose
key is not the root's; if no attempt created a new edge the phase leaves the
database untouched (root version included); if at least one did, `handle`
reports a change and the root's version is incremented by exactly one at the
end of the phase, however many new edges were created. -/
theorem root_edge_induction {db db1 db2 : NeighborhoodDatabase} {g : Gossip}
    {c1 c2 : Bool}
    (hA : handle_node_records db g = some (db1, c1))
    (hB : add_ip_neighbors db1 g = some (db2, c2)) :
    handle db g = some (db2, c2 || c1) ∧
    (c2 = false → db2 = db1) ∧
    (c2 = true → handle db g = some (db2, true) ∧
      ∃ r1 r2, db1.root = some r1 ∧ db2.root = some r2 ∧
        r2.inner.version = r1.inner.version + 1) := by
  have hhandle : handle db g = some (db2, c2 || c1) := by
    simp [handle, hA, hB]
  refine ⟨hhandle, fun hc2 => add_ip_neighbors_changed_false (hc2 ▸ hB), fun hc2 => ?_⟩
  subst hc2
  refine ⟨by simpa using hhandle, ?_⟩
  rcases hroot : db1.root with _ | rr
  · simp [add_ip_neighbors, hroot] at hB
  · rcases hl : ip_loop rr.public_key (db1, false) g.node_records with _ | ⟨dbL, ch⟩
    · simp [add_ip_neighbors, hroot, hl] at hB
    · by_cases hch : ch = true
      · subst hch
        rcases hm : dbL.node_by_key dbL.this_node with _ | r
        · simp [add_ip_neighbors, hroot, hl, hm] at hB
        · simp [add_ip_neighbors, hroot, hl, hm] at hB
          obtain ⟨hthis, hvers⟩ := ip_loop_same_versions _ rr.public_key db1 false dbL true hl
          have hv := hvers dbL.this_node
          rw [hm, hthis] at hv
          have hr1 : db1.node_by_key db1.this_node = some rr := hroot
          rw [hr1] at hv
          simp at hv
          refine ⟨rr, r.increment_version, rfl, ?_, ?_⟩
          · rw [← hB]
            show (dbL.insertRecord dbL.this_node r.increment_version).node_by_key
              (dbL.insertRecord dbL.this_node r.increment_version).this_node =
              some r.increment_version
            rw [insertRecord_this_node, node_by_key_insertRecord, if_pos rfl]
          · show r.inner.version + 1 = rr.inner.version + 1
            rw [hv]
      · have hchf : ch = false := by simpa using hch
        subst hchf
        simp [add_ip_neighbors, hroot, hl] at hB

/-- C5 witness: a fresh database learning one addressed record gains the root
edge and the root's version goes from 0 to exactly 1. -/
theorem root_edge_induction_witness :
    handle c5Db c5Gossip = some (c5Db2, true || true) ∧
    (true = false → c5Db2 = c5Db1) ∧
    (true = true → handle c5Db c5Gossip = some (c5Db2, true) ∧
      ∃ r1 r2, c5Db1.root = some r1 ∧ c5Db2.root = some r2 ∧
        r2.inner.version = r1.inner.version + 1) :=
  @root_edge_induction c5Db c5Db1 c5Db2 c5Gossip true true (by decide) (by decide)

/-- C6: a gossip record rejected by the validity filter (blank key, blank
neighbor reference, or self-neighbor) is skipped by Phase A: absorbing a batch
containing it equals absorbing the batch with it removed — the database entry
under its key is untouched by Phase A and the rest of the batch still runs. -/
theorem validity_filter_skips_record (db : NeighborhoodDatabase)
    (pre post : List GossipNodeRecord) (gnr : GossipNodeRecord)
    (h : is_not_invalid gnr = false) :
    handle_node_records db ⟨pre ++ gnr :: post⟩ = handle_node_records db ⟨pre ++ post⟩ := by
  simp [handle_node_records, List.filter_append, List.filter_cons, h]

/-- C6 witness: the self-neighboring record `c6Gnr` is invalid and is skipped. -/
theorem validity_filter_skips_record_witness :
    is_not_invalid c6Gnr = false ∧
    handle_node_records c6Db ⟨[c6Gnr]⟩ = handle_node_records c6Db ⟨[]⟩ :=
  ⟨by decide, validity_filter_skips_record c6Db [] [] c6Gnr (by decide)⟩

/-- C7 (counterexample): two records may share an IP.  Merging `c7Gossip`
(two distinct keys, both with IP 7) into a fresh database succeeds and leaves
two stored records whose addresses carry the same IP, refuting the invariant
in a state reached through the public API. -/
theorem ip_uniqueness_counterexample :
    handle c7Db c7Gossip = some (c7Post, true) ∧
    ¬ ipConsistent c7Post.by_public_key :=
  ⟨by decide, by decide⟩

/-- C7 (amended): IP uniqueness holds only under the unenforced freshness
precondition.  In every state reachable through `new`, `add_node` of records
whose IP (when present) clashes with no stored record, `add_neighbor` and
`remove_neighbor`, no two records stored under distinct keys carry the same
IP.  `add_node` itself performs no IP-collision check (see the
counterexample), so the precondition is the caller's burden. -/
theorem ip_uniqueness_fresh_reachable {db : NeighborhoodDatabase}
    (h : ReachFreshIp db) : ipConsistent db.by_public_key := by
  induction h with
  | new k addr b s => exact new_ipConsistent k addr b s
  | @add_node db r db' hre hok hfresh ih =>
      rw [add_node_ok_by_public_key hok,
        alistInsert_of_not_mem r (by exact (add_node_ok_lookup hok).2.1)]
      intro p hp q hq hne
      rcases List.mem_append.mp hp with hp' | hp' <;>
        rcases List.mem_append.mp hq with hq' | hq'
      · exact ih p hp' q hq' hne
      · rw [List.mem_singleton.mp hq']
        rcases hra : r.inner.node_addr_opt with _ | a
        · exact addrIpClash_none_right _
        · exact addrIpClash_symm_false (hfresh a hra p hp')
      · rw [List.mem_singleton.mp hp']
        rcases hra : r.inner.node_addr_opt with _ | a
        · exact addrIpClash_none_left _
        · exact hfresh a hra q hq'
      · exact absurd ((List.mem_singleton.mp hq') ▸ (List.mem_singleton.mp hp') ▸ rfl) hne
  | @add_neighbor db x y f db' hre hok ih =>
      rcases add_neighbor_ok hok with ⟨-, rfl⟩ | ⟨-, node, hnode, rfl⟩
      · exact ih
      · exact ipConsistent_insert hnode (Or.inl rfl) ih
  | @remove_neighbor db k f db' hre hok ih =>
      obtain ⟨r, rr, hr, hrr, -, hbp⟩ := remove_neighbor_ok_shape hok
      rw [hbp]
      exact ipConsistent_insert hrr
        (Or.inl (remove_neighbor_record_spec rr k).2.2.1)
        (ipConsistent_insert hr (Or.inr rfl) ih)

/-- C7 witness: a fresh database plus one fresh-IP `add_node` is IP-consistent. -/
theorem ip_uniqueness_fresh_reachable_witness : ipConsistent c7FreshDb.by_public_key :=
  ip_uniqueness_fresh_reachable
    (@ReachFreshIp.add_node (NeighborhoodDatabase.new [1] ⟨1, [1]⟩ false sigA)
      c7FreshRec c7FreshDb (ReachFreshIp.new [1] ⟨1, [1]⟩ false sigA)
      (by decide)
      (fun a ha => by
        have ha2 : a = ⟨9, [9]⟩ := by
          have ha3 : (some ⟨9, [9]⟩ : Option NodeAddr) = some a := ha
          injection ha3 with h3
          exact h3.symm
        rw [ha2]
        decide))

/-- C8 (counterexample): `add_neighbor(k, k)` creates a self-edge.  Starting
from a fresh database, `add_node` of `[2]` followed by `add_neighbor([2], [2])`
returns `Ok(true)` and leaves record `[2]` listing itself as a neighbor. -/
theorem no_self_neighbor_counterexample :
    c8Db0.add_node c8Rec2 = .ok c8Db1 ∧
    c8Db1.add_neighbor [2] [2] = .ok (true, c8Post) ∧
    ¬ noSelfNeighbor c8Post.by_public_key :=
  ⟨by decide, by decide, by decide⟩

/-- C8 (amended): no stored record lists its own key among its neighbors in
any state reachable from a fresh database via `add_node` of records without
self-loops, `add_neighbor` with distinct endpoint keys, `remove_neighbor`, and
arbitrary successful gossip `handle` calls; the unamended claim fails because
`add_neighbor(k, k)` itself installs a self-edge. -/
theorem no_self_neighbor_guarded {db : NeighborhoodDatabase}
    (h : ReachGuarded db) : noSelfNeighbor db.by_public_key :=
  (reach_guarded_good h).2

/-- C8 witness: the database obtained by handling one addressed gossip record
from a fresh database has no self-neighbor. -/
theorem no_self_neighbor_guarded_witness : noSelfNeighbor c5Db2.by_public_key :=
  no_self_neighbor_guarded
    (ReachGuarded.handle
      ((show NeighborhoodDatabase.new [1] ⟨1, [1]⟩ false sigA = c5Db from by decide) ▸
        ReachGuarded.new [1] ⟨1, [1]⟩ false sigA)
      (show handle c5Db c5Gossip = some (c5Db2, true) from by decide))

/-- C9: `remove_neighbor(key)`.  On a stored key it returns `Ok(b)`, clears
that record's `node_addr_opt`, removes the record's old IP from the secondary
index, erases the root-to-key edge, and `b` is true iff that edge existed —
the address clearing and index removal happen even when `b` is false.  On an
unknown key it returns the descriptive error message (and, being a pure
function of the input state, leaves the database unchanged). -/
theorem remove_neighbor_spec {db : NeighborhoodDatabase} (k : Key) :
    (∀ r rootRec, db.node_by_key k = some r →
      db.node_by_key db.this_node = some rootRec →
      ∃ b db', db.remove_neighbor k = some (.ok (b, db')) ∧
        b = rootRec.has_neighbor k ∧
        (∃ r', db'.node_by_key k = some r' ∧ r'.inner.node_addr_opt = none) ∧
        (∀ a, r.inner.node_addr_opt = some a → alistGet db'.by_ip_addr a.ip = none) ∧
        (∃ rt, db'.node_by_key db'.this_node = some rt ∧
          rt.inner.neighbors = rootRec.inner.neighbors.erase k)) ∧
    (db.node_by_key k = none →
      db.remove_neighbor k = some (.error (removeNonexistentMsg k))) := by
  constructor
  · intro r rootRec hr hroot
    by_cases hk : db.this_node = k
    · -- removing the root key itself
      have hrr : rootRec = r := by
        rw [hk, hr] at hroot
        injection hroot with h
        exact h.symm
      rw [hrr]
      have hroot2 : ∀ dbx : NeighborhoodDatabase,
          dbx.by_public_key = alistInsert db.by_public_key k r.unset_node_addr →
          dbx.this_node = db.this_node →
          dbx.node_by_key dbx.this_node = some r.unset_node_addr := by
        intro dbx h1 h2
        show alistGet dbx.by_public_key dbx.this_node = _
        rw [h1, h2, hk, alistGet_insert, if_pos rfl]
      obtain ⟨hb, -, haddr2, hnb2, -⟩ := remove_neighbor_record_spec r.unset_node_addr k
      rcases hrm : r.unset_node_addr.remove_neighbor k with ⟨removed, root2⟩
      rw [hrm] at hb haddr2 hnb2
      rcases haddr : r.inner.node_addr_opt with _ | a
      · refine ⟨removed, ⟨db.this_node, alistInsert (alistInsert db.by_public_key k r.unset_node_addr) db.this_node root2, db.by_ip_addr⟩, ?_, ?_, ?_, ?_, ?_⟩
        · show db.remove_neighbor k = _
          have hr3 : alistGet db.by_public_key k = some r := hr
          simp [remove_neighbor, hr3, NodeRecord.node_addr_opt, haddr, hrm,
            node_by_key, insertRecord, alistGet_insert, hk]
        · exact hb
        · refine ⟨root2, ?_, ?_⟩
          · show alistGet (alistInsert (alistInsert db.by_public_key k
              r.unset_node_addr) db.this_node root2) k = _
            rw [hk, alistGet_insert, if_pos rfl]
          · exact haddr2
        · intro a ha
          exact Option.noConfusion ha
        · exact ⟨root2, by
            show alistGet (alistInsert (alistInsert db.by_public_key k
              r.unset_node_addr) db.this_node root2) db.this_node = _
            rw [alistGet_insert, if_pos rfl], hnb2⟩
      · refine ⟨removed, ⟨db.this_node, alistInsert (alistInsert db.by_public_key k r.unset_node_addr) db.this_node root2, alistRemove db.by_ip_addr a.ip⟩, ?_, ?_, ?_, ?_, ?_⟩
        · show db.remove_neighbor k = _
          have hr3 : alistGet db.by_public_key k = some r := hr
          simp [remove_neighbor, hr3, NodeRecord.node_addr_opt, haddr, hrm,
            node_by_key, insertRecord, alistGet_insert, hk]
        · exact hb
        · refine ⟨root2, ?_, ?_⟩
          · show alistGet (alistInsert (alistInsert db.by_public_key k
              r.unset_node_addr) db.this_node root2) k = _
            rw [hk, alistGet_insert, if_pos rfl]
          · exact haddr2
        · intro a' ha'
          injection ha' with ha'
          show alistGet (alistRemove db.by_ip_addr a.ip) a'.ip = none
          rw [← ha', alistGet_remove, if_pos rfl]
        · exact ⟨root2, by
            show alistGet (alistInsert (alistInsert db.by_public_key k
              r.unset_node_addr) db.this_node root2) db.this_node = _
            rw [alistGet_insert, if_pos rfl], hnb2⟩
    · -- removing a non-root key
      have hroot2 : ∀ dbx : NeighborhoodDatabase,
          dbx.by_public_key = alistInsert db.by_public_key k r.unset_node_addr →
          dbx.this_node = db.this_node →
          dbx.node_by_key dbx.this_node = some rootRec := by
        intro dbx h1 h2
        show alistGet dbx.by_public_key dbx.this_node = _
        rw [h1, h2, alistGet_insert, if_neg hk]
        exact hroot
      obtain ⟨hb, -, -, hnb2, -⟩ := remove_neighbor_record_spec rootRec k
      rcases hrm : rootRec.remove_neighbor k with ⟨removed, root2⟩
      rw [hrm] at hb hnb2
      rcases haddr : r.inner.node_addr_opt with _ | a
      · refine ⟨removed, ⟨db.this_node, alistInsert (alistInsert db.by_public_key k r.unset_node_addr) db.this_node root2, db.by_ip_addr⟩, ?_, ?_, ?_, ?_, ?_⟩
        · show db.remove_neighbor k = _
          have hroot3 : alistGet db.by_public_key db.this_node = some rootRec := hroot
          have hr3 : alistGet db.by_public_key k = some r := hr
          simp [remove_neighbor, hr3, NodeRecord.node_addr_opt, haddr, hrm,
            node_by_key, insertRecord, alistGet_insert, hk, hroot3]
        · exact hb
        · refine ⟨r.unset_node_addr, ?_, rfl⟩
          show alistGet (alistInsert (alistInsert db.by_public_key k
            r.unset_node_addr) db.this_node root2) k = _
          rw [alistGet_insert, if_neg (Ne.symm hk), alistGet_insert, if_pos rfl]
        · intro a ha
          exact Option.noConfusion ha
        · exact ⟨root2, by
            show alistGet (alistInsert (alistInsert db.by_public_key k
              r.unset_node_addr) db.this_node root2) db.this_node = _
            rw [alistGet_insert, if_pos rfl], hnb2⟩
      · refine ⟨removed, ⟨db.this_node, alistInsert (alistInsert db.by_public_key k r.unset_node_addr) db.this_node root2, alistRemove db.by_ip_addr a.ip⟩, ?_, ?_, ?_, ?_, ?_⟩
        · show db.remove_neighbor k = _
          have hroot3 : alistGet db.by_public_key db.this_node = some rootRec := hroot
          have hr3 : alistGet db.by_public_key k = some r := hr
          simp [remove_neighbor, hr3, NodeRecord.node_addr_opt, haddr, hrm,
            node_by_key, insertRecord, alistGet_insert, hk, hroot3]
        · exact hb
        · refine ⟨r.unset_node_addr, ?_, rfl⟩
          show alistGet (alistInsert (alistInsert db.by_public_key k
            r.unset_node_addr) db.this_node root2) k = _
          rw [alistGet_insert, if_neg (Ne.symm hk), alistGet_insert, if_pos rfl]
        · intro a' ha'
          injection ha' with ha'
          show alistGet (alistRemove db.by_ip_addr a.ip) a'.ip = none
          rw [← ha', alistGet_remove, if_pos rfl]
        · exact ⟨root2, by
            show alistGet (alistInsert (alistInsert db.by_public_key k
              r.unset_node_addr) db.this_node root2) db.this_node = _
            rw [alistGet_insert, if_pos rfl], hnb2⟩
  · intro h
    simp [remove_neighbor, h]

/-- C9 witness: removing stored key `[2]` (with an edge from the root and an
indexed IP) returns `Ok(true)`, clears the address, drops the IP entry and the
edge. -/
theorem remove_neighbor_spec_witness :
    ∃ b db', c9Db.remove_neighbor [2] = some (.ok (b, db')) ∧
      b = c9Root.has_neighbor [2] ∧
      (∃ r', db'.node_by_key [2] = some r' ∧ r'.inner.node_addr_opt = none) ∧
      (∀ a, c9Rec2.inner.node_addr_opt = some a →
        alistGet db'.by_ip_addr a.ip = none) ∧
      (∃ rt, db'.node_by_key db'.this_node = some rt ∧
        rt.inner.neighbors = c9Root.inner.neighbors.erase [2]) :=
  (@remove_neighbor_spec c9Db [2]).1 c9Rec2 c9Root (by decide) (by decide)

/-- C10 (implicit): address adoption does not update the IP secondary index.
When `handle` adopts a gossip-carried address for an already-stored record
(stored `node_addr_opt = None`, incoming `Some a`), only the record is
mutated: `by_ip_addr` is exactly the pre-call index (only `add_node` and
`remove_neighbor` write it), so when `a.ip` was unindexed before the merge,
`node_by_ip(a.ip)` still returns `None` while `node_by_key` shows the record
carrying `a`. -/
theorem address_adoption_skips_ip_index {db : NeighborhoodDatabase}
    {gnr : GossipNodeRecord} {r rootRec : NodeRecord} {a : NodeAddr}
    (hr : db.node_by_key gnr.inner.public_key = some r)
    (hra : r.inner.node_addr_opt = none)
    (hga : gnr.inner.node_addr_opt = some a)
    (hvalid : is_not_invalid gnr = true)
    (hroot : db.node_by_key db.this_node = some rootRec)
    (hwk : rootRec.inner.public_key = db.this_node) :
    ∃ db' c, handle db ⟨[gnr]⟩ = some (db', c) ∧
      (∃ r', db'.node_by_key gnr.inner.public_key = some r' ∧
        r'.inner.node_addr_opt = some a) ∧
      db'.by_ip_addr = db.by_ip_addr ∧
      (alistGet db.by_ip_addr a.ip = none → db'.node_by_ip a.ip = none) := by
  obtain ⟨db1, c1, hstep, r', hr', hpk', haddr', -, -, -⟩ :=
    @handle_step_known_spec db false gnr r hr
  rw [hra, hga] at haddr'
  simp at haddr'
  have hA : handle_node_records db ⟨[gnr]⟩ = some (db1, c1) := by
    simp [handle_node_records, hvalid, handle_loop, hstep]
  rcases handle_step_exists_insert hstep with ⟨rX, hdb1⟩ | hadd
  swap
  · exact absurd (show gnr.to_node_record.inner.public_key ∈ db.keys from
      mem_keys_iff.mpr ⟨r, hr⟩) (add_node_ok_lookup hadd).2.1
  have this1 : db1.this_node = db.this_node := by rw [hdb1]; rfl
  have hip1 : db1.by_ip_addr = db.by_ip_addr := by rw [hdb1]; rfl
  have hkeymem : gnr.inner.public_key ∈ db1.keys := mem_keys_iff.mpr ⟨r', hr'⟩
  rcases hB : add_ip_neighbors db1 ⟨[gnr]⟩ with _ | ⟨db2, c2⟩
  · exfalso
    by_cases hkey : gnr.inner.public_key = db.this_node
    · have hrr2 : rootRec = r := by
        rw [hkey] at hr
        rw [hr] at hroot
        injection hroot with h
        exact h.symm
      have hpkeq : r'.inner.public_key = gnr.inner.public_key := by
        rw [hpk', ← hrr2, hwk]
        exact hkey.symm
      have hrt : db1.root = some r' := by
        show db1.node_by_key db1.this_node = some r'
        rw [this1, ← hkey]
        exact hr'
      simp [add_ip_neighbors, hrt, ip_loop, ip_step, NodeRecord.public_key, hpkeq] at hB
    · have hrt : db1.root = some rootRec := by
        show db1.node_by_key db1.this_node = some rootRec
        rw [this1, hdb1, node_by_key_insertRecord, if_neg (fun h => hkey h.symm)]
        exact hroot
      have hkeyne : ¬ gnr.inner.public_key = rootRec.inner.public_key := by
        rw [hwk]
        exact hkey
      by_cases hhn : db1.has_neighbor rootRec.inner.public_key gnr.inner.public_key
      · have han : db1.add_neighbor rootRec.inner.public_key gnr.inner.public_key =
            .ok (false, db1) := by
          simp [add_neighbor, hkeymem, hhn]
        simp [add_ip_neighbors, hrt, ip_loop, ip_step, NodeRecord.public_key, hga,
          hkeyne, han] at hB
      · have hrtpk : db1.node_by_key rootRec.inner.public_key = some rootRec := by
          rw [hwk, ← this1]
          exact hrt
        have hhnf : db1.has_neighbor rootRec.inner.public_key gnr.inner.public_key
            = false := by simpa using hhn
        have han : db1.add_neighbor rootRec.inner.public_key gnr.inner.public_key =
            .ok (true, db1.insertRecord rootRec.inner.public_key { rootRec with inner := { rootRec.inner with neighbors := rootRec.inner.neighbors ++ [gnr.inner.public_key] } }) := by
          simp [add_neighbor, hkeymem, hhnf, hrtpk]
        have hlast : (db1.insertRecord rootRec.inner.public_key { rootRec with inner := { rootRec.inner with neighbors := rootRec.inner.neighbors ++ [gnr.inner.public_key] } }).node_by_key (db1.insertRecord rootRec.inner.public_key { rootRec with inner := { rootRec.inner with neighbors := rootRec.inner.neighbors ++ [gnr.inner.public_key] } }).this_node = some { rootRec with inner := { rootRec.inner with neighbors := rootRec.inner.neighbors ++ [gnr.inner.public_key] } } := by
          show (db1.insertRecord _ _).node_by_key db1.this_node = _
          rw [node_by_key_insertRecord, if_pos (this1.trans hwk.symm)]
        simp [add_ip_neighbors, hrt, ip_loop, ip_step, NodeRecord.public_key, hga,
          hkeyne, han, hlast] at hB
  · have hipB : db2.by_ip_addr = db1.by_ip_addr := add_ip_neighbors_by_ip hB
    have haddr2 : hasStoredAddr db2 gnr.inner.public_key a :=
      add_ip_neighbors_preserves_addr hB ⟨r', hr', haddr'⟩
    refine ⟨db2, c2 || c1, by simp [handle, hA, hB], haddr2, hipB.trans hip1, ?_⟩
    intro hnone
    simp [node_by_ip, hipB, hip1, hnone]

/-- C10 witness: adopting 5.5.5.5 for stored key `[2]` leaves the IP index
untouched: `node_by_key` shows the address but `node_by_ip` misses. -/
theorem address_adoption_skips_ip_index_witness :
    ∃ db' c, handle c10Db ⟨[c10Gnr]⟩ = some (db', c) ∧
      (∃ r', db'.node_by_key c10Gnr.inner.public_key = some r' ∧
        r'.inner.node_addr_opt = some ⟨5, [5]⟩) ∧
      db'.by_ip_addr = c10Db.by_ip_addr ∧
      (alistGet c10Db.by_ip_addr (5 : Nat) = none → db'.node_by_ip 5 = none) :=
  @address_adoption_skips_ip_index c10Db c10Gnr c10Rec2 c9Root ⟨5, [5]⟩
    (by decide) (by decide) (by decide) (by decide) (by decide) (by decide)

end Substratum

